import Mathlib

/-!
Verification development for the data-gemini-visualizer repository.

The TypeScript sources are shallowly embedded in Lean:

* a JavaScript scalar cell value becomes the inductive type `Value`
  (string, number, null, undefined); JavaScript numbers are modelled as
  integers, which covers all comparisons and sums the embedded code
  performs (no genuine floating-point rounding is exercised by the
  embedded functions: the only fractional constant, the `0.8` threshold
  in `detectDataTypes`, is rendered exactly as `5 * count > 4 * total`);
* a tabular record (a plain JS object) becomes an association list of
  column name and value, with the JS own-property insertion order and
  assignment-overwrite semantics made explicit (`jsGet`, `jsSet`);
* the host-environment string parsers `Number(...)` and `Date.parse(...)`
  are parameters of the development, collected in the structure
  `JSPrims`; every universal theorem holds for all such parameter
  choices, and a small executable instance `jsEnv` (a fragment of the
  real JS grammars, agreeing with JS on every string it is applied to)
  instantiates witnesses and counterexamples;
* `JSON.parse` plus the unchecked TypeScript cast that follows it is a
  parameter `p : String → Option α` of each function that parses a
  remote reply;
* the remote Gemini endpoint is an oracle: a trace of `RemoteOutcome`
  values consumed one per HTTP request, where `netFail` covers a
  rejected fetch or a non-2xx response and `reply t?` a 2xx response
  whose extracted text is `t?` (`none` when the response shape carries
  no text).  Prompt strings only influence the remote model, i.e. the
  oracle, so their construction is not re-modelled;
* a function that can throw returns `Except String`.
-/

/-- A JavaScript scalar value as stored in a tabular record cell. -/
inductive Value where
  | str (s : String)
  | num (n : Int)
  | null
  | undef
  deriving DecidableEq, Repr

/-- A tabular record: a JS object mapping column names to scalar values,
as an association list in property insertion order. -/
abbrev Record := List (String × Value)

/-- Models `Object.keys(r)` — the own property names in insertion order. -/
def keys (r : Record) : List String :=
  r.map Prod.fst

/-- Models `r[k]` — property access; an absent property reads as `undefined`. -/
def jsGet (r : Record) (k : String) : Value :=
  match r.find? (fun p => p.1 == k) with
  | some p => p.2
  | none => Value.undef

/-- Models `r[k] = v` — JS assignment: an existing property keeps its position
and is overwritten, a new property is appended. -/
def jsSet (r : Record) (k : String) (v : Value) : Record :=
  if (keys r).contains k then
    r.map (fun p => if p.1 == k then (p.1, v) else p)
  else
    r ++ [(k, v)]

/-- JS truthiness of a scalar value. -/
def jsTruthy : Value → Bool
  | Value.str s => s ≠ ""
  | Value.num n => n ≠ 0
  | Value.null => false
  | Value.undef => false

/-- Models `String(v)` — JS string coercion of a scalar value. -/
def jsToString : Value → String
  | Value.str s => s
  | Value.num n => toString n
  | Value.null => "null"
  | Value.undef => "undefined"

/-- The test of `countMissingValues`:
`value === '' || value === null || value === undefined`. -/
def isMissingVal (v : Value) : Bool :=
  v == Value.str ("") || v == Value.null || v == Value.undef

/-- The host-environment string parsers used by the heuristics, kept as
parameters: `isNumStr s` is `!isNaN(Number(s))`, `isDateStr s` is
`!isNaN(Date.parse(s))`, and `numVal s` is `Number(s)` on strings for
which `isNumStr` holds. -/
structure JSPrims where
  isNumStr : String → Bool
  isDateStr : String → Bool
  numVal : String → Int

/-- Models `!isNaN(Number(v))` on a scalar value: `Number` maps `null` to `0`
and `undefined` to `NaN`. -/
def jsIsNumericVal (env : JSPrims) : Value → Bool
  | Value.str s => env.isNumStr s
  | Value.num _ => true
  | Value.null => true
  | Value.undef => false

/-- Models `!isNaN(Date.parse(v))` on a scalar value: `Date.parse` coerces its
argument to a string first. -/
def jsIsDateVal (env : JSPrims) : Value → Bool
  | Value.str s => env.isDateStr s
  | Value.num n => env.isDateStr (toString n)
  | Value.null => env.isDateStr ("null")
  | Value.undef => env.isDateStr ("undefined")

/-- Models `Number(v) || 0` — the numeric value of a cell with `NaN` (and `0`
itself) collapsed to `0`. -/
def toNumOr0 (env : JSPrims) : Value → Int
  | Value.str s => if env.isNumStr s then env.numVal s else 0
  | Value.num n => n
  | Value.null => 0
  | Value.undef => 0

/-! ### Character-level string helpers

The embedded string functions work on `List Char` (obtained through
`String.toList`) so that every definition reduces inside the kernel. -/

/-- The double-quote character, written by code point to keep literals
simple. -/
def quoteChar : Char := Char.ofNat 34

/-- The apostrophe character. -/
def apostChar : Char := Char.ofNat 39

/-- The backtick character. -/
def backtick : Char := Char.ofNat 96

/-- The whitespace class of JS `String.prototype.trim` (the ASCII part,
which is all the embedded code ever feeds it). -/
def isJsSpace (c : Char) : Bool :=
  c == ' ' || c == '\t' || c == '\n' || c == '\r' || c == Char.ofNat 11 || c == Char.ofNat 12

/-- Models `s.trim()` on a character list. -/
def trimL (l : List Char) : List Char :=
  ((l.dropWhile isJsSpace).reverse.dropWhile isJsSpace).reverse

/-- Models the global replace that deletes every apostrophe and
double-quote character from a string. -/
def dequoteL (l : List Char) : List Char :=
  l.filter (fun c => !(c == quoteChar) && !(c == apostChar))

/-- Models `s.split(sep)` for a single-character separator, with the JS
semantics (`"".split(sep)` gives `[""]`, adjacent separators give empty
fields). -/
def splitChar (sep : Char) : List Char → List (List Char)
  | [] => [[]]
  | c :: cs =>
    let r := splitChar sep cs
    if c == sep then [] :: r
    else (c :: r.headD []) :: r.tail

/-- Models `s.trim()` on strings. -/
def jsTrim (s : String) : String :=
  String.mk (trimL s.toList)

/-- Models the header and field normalisation of `csvToJson`: trim, then
delete every apostrophe and double-quote character. -/
def processCell (l : List Char) : String :=
  String.mk (dequoteL (trimL l))

/-! ### `csvToJson` (src/utils/dataProcessor.ts lines 48-62, identical in
src/unnamed/part_001 lines 35-49) -/

/-- The body of `headers.forEach((header, index) => { row[header] =
values[index] || ''; })`: an index-threaded fold of JS assignments into
an initially empty object.  `values[index] || ''` reads as the field at
`index` when present and non-empty, and the empty string otherwise, which is exactly
`values.getD index ""` because the fields are strings. -/
def buildRowAux (values : List String) : List String → Nat → Record → Record
  | [], _, row => row
  | h :: hs, i, row => buildRowAux values hs (i + 1) (jsSet row h (Value.str (values.getD i (""))))

/-- One output record of `csvToJson`, built from the processed header
names and the processed fields of one line. -/
def buildRow (headers : List String) (values : List String) : Record :=
  buildRowAux values headers 0 []

/-- Models `csvToJson` — splits on newlines, takes the first line as headers,
keeps the non-blank remaining lines, and builds one record per line. -/
def csvToJson (csvText : String) : List Record :=
  let lines := splitChar '\n' csvText.toList
  let headers := (splitChar ',' (lines.headD [])).map processCell
  ((lines.drop 1).filter (fun line => trimL line ≠ [])).map (fun line =>
    let values := (splitChar ',' line).map processCell
    buildRow headers values)

/-- Claim-side rendering of one CSV record: literally one key per header
name, in header order, with the field at the same index (or the empty
string past the end of the line). -/
def rowCellsAux (values : List String) : List String → Nat → Record
  | [], _ => []
  | h :: hs, i => (h, Value.str (values.getD i (""))) :: rowCellsAux values hs (i + 1)

/-- Claim-side rendering of one CSV record, started at index 0. -/
def rowCells (headers : List String) (values : List String) : Record :=
  rowCellsAux values headers 0

/-! ### `detectDataTypes` (src/utils/dataProcessor.ts lines 67-99) -/

/-- The verdict for one column inside `detectDataTypes`. -/
inductive ColKind where
  | numeric
  | temporal
  | categorical
  deriving DecidableEq, Repr

/-- The three column-name lists returned by a type classification. -/
structure DataTypes where
  numeric : List String
  categorical : List String
  temporal : List String
  deriving DecidableEq, Repr

/-- Models `data.map(row => row[column]).filter(v => v !== '')` — the sampled
values of a column. -/
def sampleValues (data : List Record) (column : String) : List Value :=
  (data.map (fun row => jsGet row column)).filter (fun v => !(v == Value.str ("")))

/-- The per-column body of `detectDataTypes`: numeric when strictly more
than 80 percent of the sampled values parse as numbers (`count >
total * 0.8` is rendered exactly as `5 * count > 4 * total`), else
temporal by the same threshold on date parses, else categorical. -/
def classifyColumn (env : JSPrims) (data : List Record) (column : String) : ColKind :=
  let values := sampleValues data column
  let numericValues := values.filter (jsIsNumericVal env)
  if 5 * numericValues.length > 4 * values.length then ColKind.numeric
  else
    let dateValues := values.filter (jsIsDateVal env)
    if 5 * dateValues.length > 4 * values.length then ColKind.temporal
    else ColKind.categorical

/-- One step of the `columns.forEach` loop of `detectDataTypes`: push the
column onto the list selected by `classifyColumn`. -/
def dtStep (env : JSPrims) (data : List Record) (acc : DataTypes) (c : String) : DataTypes :=
  match classifyColumn env data c with
  | ColKind.numeric => { acc with numeric := acc.numeric ++ [c] }
  | ColKind.temporal => { acc with temporal := acc.temporal ++ [c] }
  | ColKind.categorical => { acc with categorical := acc.categorical ++ [c] }

/-- Models `detectDataTypes` — empty data gives three empty lists; otherwise the
columns of the first record are classified one by one. -/
def detectDataTypes (env : JSPrims) (data : List Record) : DataTypes :=
  match data with
  | [] => ⟨[], [], []⟩
  | r0 :: _ => (keys r0).foldl (dtStep env data) ⟨[], [], []⟩

/-! ### `countMissingValues` (src/utils/dataProcessor.ts lines 150-162,
identical in src/services/geminiApi.ts lines 465-475 and in
src/unnamed/part_000 lines 262-272) -/

/-- Models `countMissingValues` — the nested `forEach` accumulation over all
rows and all cell values. -/
def countMissingValues (data : List Record) : Nat :=
  data.foldl
    (fun missing row =>
      row.foldl (fun m p => if isMissingVal p.2 then m + 1 else m) missing)
    0

/-- Claim-side count of missing cells in one row. -/
def missingInRow (r : Record) : Nat :=
  (r.map Prod.snd).countP isMissingVal

/-- Claim-side total number of cells of a record list. -/
def totalCells (data : List Record) : Nat :=
  (data.map List.length).sum

/-! ### Analysis data model (src/utils/dataProcessor.ts lines 6-43) -/

/-- One chart-data point (`{ name, value }`). -/
structure ChartPoint where
  name : String
  value : Int
  deriving DecidableEq, Repr

/-- One scatter point (`{ x, y, name }`). -/
structure ScatterPoint where
  x : Int
  y : Int
  name : String
  deriving DecidableEq, Repr

/-- The chart-data bundle of a `DataAnalysis`. -/
structure ChartData where
  bar : List ChartPoint
  line : List ChartPoint
  pie : List ChartPoint
  scatter : List ScatterPoint
  deriving DecidableEq, Repr

/-- One chart recommendation (`{ type, reason, confidence }`). -/
structure ChartRecommendation where
  type : String
  reason : String
  confidence : Int
  deriving DecidableEq, Repr

/-- The data-quality summary of a `DataAnalysis`. -/
structure DataQuality where
  totalRows : Int
  duplicates : Int
  missingValues : Int
  inconsistencies : Int
  deriving DecidableEq, Repr

/-- The `DataAnalysis` interface. -/
structure DataAnalysis where
  dataQuality : DataQuality
  suggestions : List String
  recommendedCharts : List ChartRecommendation
  dataTypes : DataTypes
  chartData : Option ChartData
  deriving DecidableEq, Repr

/-- The `dataQuality` object of an unvalidated model reply: every field
may be absent. -/
structure RawQuality where
  totalRows : Option Int
  duplicates : Option Int
  missingValues : Option Int
  inconsistencies : Option Int
  deriving DecidableEq, Repr

/-- An unvalidated analysis reply from the model, as consumed by
`validateAndEnhanceAnalysis`: the object and its fields may be absent.
The `totalRows` the model returned is carried but, as the code shows,
never read. -/
structure RawAnalysis where
  dataQuality : Option RawQuality
  suggestions : Option (List String)
  deriving DecidableEq, Repr

/-- JS `x || d` on an optional number: absent or `0` (the falsy number
the code can hit here) falls back to `d`. -/
def jsOrNum (o : Option Int) (d : Int) : Int :=
  match o with
  | none => d
  | some n => if n = 0 then d else n

/-- Models `Object.keys(data[0] || {})`. -/
def keysOfData (data : List Record) : List String :=
  match data with
  | [] => []
  | r0 :: _ => keys r0

/-! ### `generateEnhancedChartRecommendations`, `validateAndEnhanceAnalysis`
and `performAutomaticAnalysis` (src/services/geminiApi.ts lines 363-463,
identical in src/unnamed/part_000 lines 160-260) -/

/-- Models `generateEnhancedChartRecommendations` — pushes up to four
recommendations depending on which column kinds are present.  The
`data` argument is carried but unused, as in the source. -/
def generateEnhancedChartRecommendations (dataTypes : DataTypes) (data : List Record) :
    List ChartRecommendation :=
  let _ := data
  (if dataTypes.categorical.length > 0 && dataTypes.numeric.length > 0 then
    [ChartRecommendation.mk ("bar")
      ("Comparar " ++ dataTypes.categorical.headD ("") ++ " por " ++ dataTypes.numeric.headD ("")) 95]
  else []) ++
  (if dataTypes.temporal.length > 0 && dataTypes.numeric.length > 0 then
    [ChartRecommendation.mk ("line")
      ("Tendência de " ++ dataTypes.numeric.headD ("") ++ " ao longo de " ++ dataTypes.temporal.headD ("")) 90]
  else []) ++
  (if dataTypes.categorical.length > 0 then
    [ChartRecommendation.mk ("pie")
      ("Distribuição de " ++ dataTypes.categorical.headD ("")) 85]
  else []) ++
  (if dataTypes.numeric.length ≥ 2 then
    [ChartRecommendation.mk ("scatter")
      ("Correlação entre " ++ dataTypes.numeric.headD ("") ++ " e " ++ (dataTypes.numeric.drop 1).headD ("")) 80]
  else [])

/-- The column predicate of the `numeric` filter in
`validateAndEnhanceAnalysis` and `performAutomaticAnalysis`:
`data.every(item => !isNaN(Number(item[key])) && item[key] !== '' &&
item[key] !== null)`. -/
def everyNumericCol (env : JSPrims) (data : List Record) (key : String) : Bool :=
  data.all (fun item =>
    jsIsNumericVal env (jsGet item key) &&
    !(jsGet item key == Value.str ("")) && !(jsGet item key == Value.null))

/-- The column predicate of the `temporal` filter:
`data.some(item => !isNaN(Date.parse(item[key])) && item[key] !== '' &&
item[key] !== null)`. -/
def someDateCol (env : JSPrims) (data : List Record) (key : String) : Bool :=
  data.any (fun item =>
    jsIsDateVal env (jsGet item key) &&
    !(jsGet item key == Value.str ("")) && !(jsGet item key == Value.null))

/-- The weaker date predicate used only inside the `categorical` filter
of `validateAndEnhanceAnalysis`:
`data.some(item => !isNaN(Date.parse(item[k])))`. -/
def someDateColWeak (env : JSPrims) (data : List Record) (key : String) : Bool :=
  data.any (fun item => jsIsDateVal env (jsGet item key))

/-- The `autoDetectedTypes` object of `validateAndEnhanceAnalysis`; note
that `categorical` excludes columns by the weaker date predicate. -/
def autoDetectedTypes (env : JSPrims) (data : List Record) : DataTypes :=
  let ks := keysOfData data
  { numeric := ks.filter (everyNumericCol env data)
    categorical := ks.filter (fun key =>
      !((ks.filter (everyNumericCol env data)).contains key) &&
      !((ks.filter (someDateColWeak env data)).contains key))
    temporal := ks.filter (someDateCol env data) }

/-- Models `validateAndEnhanceAnalysis` — recomputes the type classification
locally, forces `totalRows` to `data.length`, and falls back for the
other quality numbers and the suggestions when the reply omits them (or
reports `0`, which is falsy). -/
def validateAndEnhanceAnalysis (env : JSPrims) (analysis : RawAnalysis) (data : List Record) :
    DataAnalysis :=
  let auto := autoDetectedTypes env data
  { dataQuality :=
      { totalRows := (data.length : Int)
        duplicates := jsOrNum (analysis.dataQuality.bind (fun q => q.duplicates)) 0
        missingValues := jsOrNum (analysis.dataQuality.bind (fun q => q.missingValues))
          (countMissingValues data : Int)
        inconsistencies := jsOrNum (analysis.dataQuality.bind (fun q => q.inconsistencies)) 0 }
    suggestions := analysis.suggestions.getD ["Dados processados com sucesso"]
    recommendedCharts := generateEnhancedChartRecommendations auto data
    dataTypes := auto
    chartData := none }

/-- Models `performAutomaticAnalysis` — the fully local analysis used when the
model reply cannot be parsed. -/
def performAutomaticAnalysis (env : JSPrims) (data : List Record) : DataAnalysis :=
  let ks := keysOfData data
  let numeric := ks.filter (everyNumericCol env data)
  let temporal := ks.filter (someDateCol env data)
  let categorical := ks.filter (fun key =>
    !(numeric.contains key) && !(temporal.contains key))
  let dt : DataTypes := { numeric := numeric, categorical := categorical, temporal := temporal }
  { dataQuality :=
      { totalRows := (data.length : Int)
        duplicates := 0
        missingValues := (countMissingValues data : Int)
        inconsistencies := 0 }
    suggestions :=
      ["Dados analisados automaticamente",
       "Detectadas " ++ toString numeric.length ++ " colunas numéricas, " ++
         toString categorical.length ++ " categóricas e " ++
         toString temporal.length ++ " temporais"]
    recommendedCharts := generateEnhancedChartRecommendations dt data
    dataTypes := dt
    chartData := none }

/-! ### `generateFallbackChartData`
(src/services/gemini/chartGenerator.ts lines 119-142, identical in
src/services/geminiApi.ts lines 244-268) -/

/-- Models the category label of `generateFallbackChartData`: the string
coercion of the cell when it is truthy, and the literal `Outros` when the
cell is falsy or absent. -/
def categoryName (v : Value) : String :=
  if jsTruthy v then jsToString v else ("Outros")

/-- Models `acc[category] = (acc[category] || 0) + value` — add `value` to the
group of `category`, creating the group at the end on first sight. -/
def addToGroup : List (String × Int) → String → Int → List (String × Int)
  | [], category, value => [(category, value)]
  | p :: ps, category, value =>
    if p.1 == category then (p.1, p.2 + value) :: ps
    else p :: addToGroup ps category value

/-- One step of the `data.reduce` accumulation of
`generateFallbackChartData`. -/
def groupStep (env : JSPrims) (categoryCol valueCol : String) (acc : List (String × Int))
    (item : Record) : List (String × Int) :=
  addToGroup acc (categoryName (jsGet item categoryCol)) (toNumOr0 env (jsGet item valueCol))

/-- The `grouped` object of `generateFallbackChartData`, as the list of
its entries in property order. -/
def groupFold (env : JSPrims) (categoryCol valueCol : String) (data : List Record) :
    List (String × Int) :=
  data.foldl (groupStep env categoryCol valueCol) []

/-- Stable insertion of a point into a list kept in non-increasing value
order: the point goes after every point of value at least its own.  This
is the effect of the stable `sort((a, b) => b.value - a.value)`. -/
def insertPointDesc (l : List ChartPoint) (x : ChartPoint) : List ChartPoint :=
  match l with
  | [] => [x]
  | y :: ys => if y.value ≥ x.value then y :: insertPointDesc ys x else x :: y :: ys

/-- The stable descending sort `sort((a, b) => b.value - a.value)`. -/
def sortPointsDesc (l : List ChartPoint) : List ChartPoint :=
  l.foldl insertPointDesc []

/-- Models `generateFallbackChartData` — groups on the first categorical column,
sums the first numeric column, sorts descending, keeps 10, and leaves
the other three series empty. -/
def generateFallbackChartData (env : JSPrims) (data : List Record) (analysis : DataAnalysis) :
    ChartData :=
  let dt := analysis.dataTypes
  if dt.categorical.length > 0 && dt.numeric.length > 0 then
    let categoryCol := dt.categorical.headD ("")
    let valueCol := dt.numeric.headD ("")
    let grouped := groupFold env categoryCol valueCol data
    let bar :=
      ((sortPointsDesc (grouped.map (fun p => ChartPoint.mk p.1 p.2))).take 10)
    { bar := bar, line := [], pie := [], scatter := [] }
  else
    { bar := [], line := [], pie := [], scatter := [] }

/-- Claim-side first-occurrence deduplication of a string list, with an
accumulator of the names already seen. -/
def dedupFirstAux (seen : List String) : List String → List String
  | [] => []
  | x :: xs =>
    if seen.contains x then dedupFirstAux seen xs
    else x :: dedupFirstAux (seen ++ [x]) xs

/-- Claim-side first-occurrence deduplication of a string list. -/
def dedupFirst (l : List String) : List String :=
  dedupFirstAux [] l

/-- Claim-side grouping: each distinct category of the data, in first
occurrence order, paired with the sum of the numeric cells of its rows. -/
def specBarGroups (env : JSPrims) (categoryCol valueCol : String) (data : List Record) :
    List (String × Int) :=
  (dedupFirst (data.map (fun item => categoryName (jsGet item categoryCol)))).map
    (fun n => (n, ((data.filter (fun item => categoryName (jsGet item categoryCol) == n)).map
      (fun item => toNumOr0 env (jsGet item valueCol))).sum))

/-! ### Markdown-fence stripping and `parseJsonResponse`
(src/services/gemini/apiClient.ts lines 61-68 and lines 143-158) -/

/-- The character pattern of a bare fence, three backticks. -/
def fence3 : List Char := [backtick, backtick, backtick]

/-- The pattern of an opening json fence. -/
def fenceJson : List Char := fence3 ++ ['j', 's', 'o', 'n']

/-- The opening json fence followed by a newline. -/
def fenceJsonNl : List Char := fenceJson ++ ['\n']

/-- A newline followed by a bare fence. -/
def nlFence : List Char := '\n' :: fence3

/-- A bare fence followed by a newline. -/
def fenceNl : List Char := fence3 ++ ['\n']

/-- The global replacement of the regex alternatives of
`replace(/```json\n?|\n?```/g, '')`: at each position the engine first
tries the json fence with its greedy optional newline, then the bare
fence with a greedy optional leading newline, and after a match resumes
past it; on no match it keeps one character and moves on. -/
def stripFencesGo : Nat → List Char → List Char
  | _, [] => []
  | 0, l => l
  | fuel + 1, c :: cs =>
    if fenceJsonNl.isPrefixOf (c :: cs) then stripFencesGo fuel ((c :: cs).drop 8)
    else if fenceJson.isPrefixOf (c :: cs) then stripFencesGo fuel ((c :: cs).drop 7)
    else if nlFence.isPrefixOf (c :: cs) then stripFencesGo fuel ((c :: cs).drop 4)
    else if fence3.isPrefixOf (c :: cs) then stripFencesGo fuel ((c :: cs).drop 3)
    else c :: stripFencesGo fuel cs

/-- Models `text.replace(/```json\n?|\n?```/g, '')` on strings.  The fuel
argument of the scanner only realizes termination: every step consumes at
least one character, so the character count is always enough fuel. -/
def stripFences1 (text : String) : String :=
  String.mk (stripFencesGo text.toList.length text.toList)

/-- The second replacement of the aggressive variant,
`replace(/```\n?|\n?```/g, '')`: first alternative a bare fence with a
greedy trailing newline, second a greedy leading newline before the
fence. -/
def stripBareFencesGo : Nat → List Char → List Char
  | _, [] => []
  | 0, l => l
  | fuel + 1, c :: cs =>
    if fenceNl.isPrefixOf (c :: cs) then stripBareFencesGo fuel ((c :: cs).drop 4)
    else if fence3.isPrefixOf (c :: cs) then stripBareFencesGo fuel ((c :: cs).drop 3)
    else if nlFence.isPrefixOf (c :: cs) then stripBareFencesGo fuel ((c :: cs).drop 4)
    else c :: stripBareFencesGo fuel cs

/-- The double replacement of the aggressive `parseJsonResponse`
variant. -/
def stripFences2 (text : String) : String :=
  let once := stripFencesGo text.toList.length text.toList
  String.mk (stripBareFencesGo once.length once)

/-- Whether a character list contains three consecutive backticks, i.e.
any markdown fence at all. -/
def containsFence (l : List Char) : Bool :=
  match l with
  | [] => false
  | _ :: cs => fence3.isPrefixOf l || containsFence cs

/-- Models `parseJsonResponse` (first variant): strip the fences, trim, then
`JSON.parse` — rendered by the parser parameter `p`; a parse failure is
rethrown as a fixed error. -/
def parseJsonResponse {α : Type} (p : String → Option α) (text : String) : Except String α :=
  match p (jsTrim (stripFences1 text)) with
  | some v => Except.ok v
  | none => Except.error ("Erro ao fazer parse da resposta JSON")

/-- Models `parseJsonResponse` (second, aggressive variant): both replacements,
then trim and parse. -/
def parseJsonResponse2 {α : Type} (p : String → Option α) (text : String) : Except String α :=
  match p (jsTrim (stripFences2 text)) with
  | some v => Except.ok v
  | none => Except.error ("Erro ao fazer parse da resposta JSON")

/-! ### The remote oracle and `GeminiApiClient`
(src/services/gemini/apiClient.ts lines 23-56) -/

/-- The outcome of one HTTP request to the Gemini endpoint: a network
failure or non-2xx response, or a 2xx response whose extracted text is
the given optional string (absent when the response shape has no
`candidates[0].content.parts[0].text`). -/
inductive RemoteOutcome where
  | netFail
  | reply (text : Option String)
  deriving DecidableEq, Repr

/-- Models `makeRequest` — consumes the next outcome of the trace; a network
failure or non-2xx response throws, a 2xx response yields its payload.
An exhausted trace behaves like a failing request. -/
def makeRequest (tr : List RemoteOutcome) :
    Except String (Option String) × List RemoteOutcome :=
  match tr with
  | [] => (Except.error ("Erro na API Gemini"), [])
  | RemoteOutcome.netFail :: rest => (Except.error ("Erro na API Gemini"), rest)
  | RemoteOutcome.reply t :: rest => (Except.ok t, rest)

/-- Models `extractTextFromResponse` — throws when the optional chain yields no
text or the text is empty (`if (!text) throw`). -/
def extractTextFromResponse (resp : Option String) : Except String String :=
  match resp with
  | none => Except.error ("Resposta inválida da API Gemini")
  | some t => if t = "" then Except.error ("Resposta inválida da API Gemini") else Except.ok t

/-- One request followed by text extraction — the shared prefix of every
stage body. -/
def requestText (tr : List RemoteOutcome) :
    Except String String × List RemoteOutcome :=
  let (r, rest) := makeRequest tr
  match r with
  | Except.error e => (Except.error e, rest)
  | Except.ok resp =>
    match extractTextFromResponse resp with
    | Except.error e => (Except.error e, rest)
    | Except.ok t => (Except.ok t, rest)

/-- The `chartDescriptions` object.  The fields are optional because the
legacy report stage can produce an empty object from an empty-object
JSON literal. -/
structure Reports where
  bar : Option String
  line : Option String
  pie : Option String
  scatter : Option String
  deriving DecidableEq, Repr

/-- Models `generateFallbackReports` — the four static report texts. -/
def generateFallbackReports : Reports :=
  { bar := some ("Gráfico de barras mostrando a distribuição dos dados por categorias principais.")
    line := some ("Gráfico de linhas apresentando a evolução temporal dos valores.")
    pie := some ("Gráfico de pizza demonstrando a proporção entre diferentes segmentos.")
    scatter := some ("Gráfico de dispersão revelando correlações entre variáveis numéricas.") }

/-! ### `GeminiDataProcessor` and `GeminiChartGenerator` — the gemini
module (src/services/gemini/dataProcessor.ts and chartGenerator.ts).
Prompt construction, which only feeds the oracle, is not re-modelled;
each stage keeps the arguments its prompt interpolates. -/

namespace GeminiDataProcessor

/-- Models `cleanData` — any failure (request, shape, or parse) is caught and
the original data returned. -/
def cleanData (p : String → Option (List Record)) (tr : List RemoteOutcome)
    (data : List Record) : Except String (List Record × List RemoteOutcome) :=
  let (rt, rest) := requestText tr
  match rt with
  | Except.error _ => Except.ok (data, rest)
  | Except.ok text =>
    match parseJsonResponse p text with
    | Except.error _ => Except.ok (data, rest)
    | Except.ok parsed => Except.ok (parsed, rest)

/-- Models `analyzeData` (simplified module variant) — the catch block logs and
rethrows, so every failure propagates to the caller. -/
def analyzeData (p : String → Option DataAnalysis) (tr : List RemoteOutcome)
    (data : List Record) : Except String (DataAnalysis × List RemoteOutcome) :=
  let _ := data
  let (rt, rest) := requestText tr
  match rt with
  | Except.error e => Except.error e
  | Except.ok text =>
    match parseJsonResponse p text with
    | Except.error e => Except.error e
    | Except.ok analysis => Except.ok (analysis, rest)

/-- Models `generateSummary` — returns the reply text, or the static text on
any failure. -/
def generateSummary (tr : List RemoteOutcome) (data : List Record)
    (analysis : DataAnalysis) : Except String (String × List RemoteOutcome) :=
  let _ := data
  let _ := analysis
  let (rt, rest) := requestText tr
  match rt with
  | Except.error _ => Except.ok ("Resumo não disponível", rest)
  | Except.ok text => Except.ok (text, rest)

end GeminiDataProcessor

namespace GeminiChartGenerator

/-- Models `generateChartData` — any failure is caught and replaced by the
local fallback aggregation. -/
def generateChartData (p : String → Option ChartData) (env : JSPrims)
    (tr : List RemoteOutcome) (data : List Record) (analysis : DataAnalysis) :
    Except String (ChartData × List RemoteOutcome) :=
  let (rt, rest) := requestText tr
  match rt with
  | Except.error _ => Except.ok (generateFallbackChartData env data analysis, rest)
  | Except.ok text =>
    match parseJsonResponse p text with
    | Except.error _ => Except.ok (generateFallbackChartData env data analysis, rest)
    | Except.ok cd => Except.ok (cd, rest)

/-- Models `generateDetailedChartReports` — any failure is caught and replaced
by the static fallback reports. -/
def generateDetailedChartReports (p : String → Option Reports)
    (tr : List RemoteOutcome) (data : List Record) (chartData : ChartData) :
    Except String (Reports × List RemoteOutcome) :=
  let _ := data
  let _ := chartData
  let (rt, rest) := requestText tr
  match rt with
  | Except.error _ => Except.ok (generateFallbackReports, rest)
  | Except.ok text =>
    match parseJsonResponse p text with
    | Except.error _ => Except.ok (generateFallbackReports, rest)
    | Except.ok r => Except.ok (r, rest)

end GeminiChartGenerator

/-- The result bundle of the full pipeline. -/
structure ProcessedDataResponse where
  cleanedData : List Record
  analysis : DataAnalysis
  summary : String
  chartDescriptions : Reports
  deriving DecidableEq, Repr

/-- Models `analyzeAndCleanDataWithGemini` (src/services/gemini/index.ts lines
9-51) — the five-stage chain; the surrounding try/catch logs and
rethrows, so it is the identity on the thrown error. -/
def analyzeAndCleanDataWithGemini
    (pc : String → Option (List Record)) (pa : String → Option DataAnalysis)
    (pd : String → Option ChartData) (pr : String → Option Reports)
    (env : JSPrims) (data : List Record) (apiKey : String) (tr : List RemoteOutcome) :
    Except String (ProcessedDataResponse × List RemoteOutcome) :=
  if apiKey = "" then Except.error ("API Key do Gemini não configurada")
  else
    match GeminiDataProcessor.cleanData pc tr data with
    | Except.error e => Except.error e
    | Except.ok (cleanedData, t1) =>
      match GeminiDataProcessor.analyzeData pa t1 cleanedData with
      | Except.error e => Except.error e
      | Except.ok (analysis, t2) =>
        match GeminiChartGenerator.generateChartData pd env t2 cleanedData analysis with
        | Except.error e => Except.error e
        | Except.ok (chartData, t3) =>
          let analysis2 := { analysis with chartData := some chartData }
          match GeminiDataProcessor.generateSummary t3 cleanedData analysis2 with
          | Except.error e => Except.error e
          | Except.ok (summary, t4) =>
            match GeminiChartGenerator.generateDetailedChartReports pr t4 cleanedData chartData with
            | Except.error e => Except.error e
            | Except.ok (desc, t5) =>
              Except.ok (⟨cleanedData, analysis2, summary, desc⟩, t5)

/-! ### The legacy monolithic service (src/services/geminiApi.ts).
Each stage inlines the request and the fence-stripping parse; here the
try/catch blocks wrap only what they wrap in the source, so request
errors and shape errors propagate out of every stage. -/

namespace GeminiApi

/-- Models `cleanDataWithGemini` (lines 282-319): a request error or a
missing reply text throws; only a JSON-parse failure is caught and
returns the original data. -/
def cleanDataWithGemini (p : String → Option (List Record)) (tr : List RemoteOutcome)
    (data : List Record) : Except String (List Record × List RemoteOutcome) :=
  let (rt, rest) := requestText tr
  match rt with
  | Except.error e => Except.error e
  | Except.ok text =>
    match p (jsTrim (stripFences1 text)) with
    | some parsed => Except.ok (parsed, rest)
    | none => Except.ok (data, rest)

/-- Models `analyzeDataWithGemini` (lines 321-361): a request error or a
missing reply text throws; a parse failure falls back to the automatic
analysis; a parsed reply is validated and enhanced. -/
def analyzeDataWithGemini (pa : String → Option RawAnalysis) (env : JSPrims)
    (tr : List RemoteOutcome) (data : List Record) :
    Except String (DataAnalysis × List RemoteOutcome) :=
  let (rt, rest) := requestText tr
  match rt with
  | Except.error e => Except.error e
  | Except.ok text =>
    match pa (jsTrim (stripFences1 text)) with
    | some raw => Except.ok (validateAndEnhanceAnalysis env raw data, rest)
    | none => Except.ok (performAutomaticAnalysis env data, rest)

/-- Models `generateChartData` (lines 86-123): a request error or a
missing reply text throws; a parse failure falls back to the local
aggregation. -/
def generateChartData (pd : String → Option ChartData) (env : JSPrims)
    (tr : List RemoteOutcome) (data : List Record) (analysis : DataAnalysis) :
    Except String (ChartData × List RemoteOutcome) :=
  let (rt, rest) := requestText tr
  match rt with
  | Except.error e => Except.error e
  | Except.ok text =>
    match pd (jsTrim (stripFences1 text)) with
    | some cd => Except.ok (cd, rest)
    | none => Except.ok (generateFallbackChartData env data analysis, rest)

/-- Models `generateSummaryWithGemini` (lines 477-517): a request error
throws, but a missing or empty reply text is papered over with the
static summary. -/
def generateSummaryWithGemini (tr : List RemoteOutcome) (data : List Record)
    (analysis : DataAnalysis) : Except String (String × List RemoteOutcome) :=
  let _ := data
  let _ := analysis
  let (r, rest) := makeRequest tr
  match r with
  | Except.error e => Except.error e
  | Except.ok resp =>
    match resp with
    | some t =>
      Except.ok ((if t = "" then "Resumo não disponível" else t), rest)
    | none => Except.ok ("Resumo não disponível", rest)

/-- Models `generateDetailedChartReports` (lines 128-160): a request
error throws; a missing text or an empty stripped text is replaced by an
empty-object JSON literal before parsing, and a parse failure yields the
static fallback reports. -/
def generateDetailedChartReports (pr : String → Option Reports)
    (tr : List RemoteOutcome) (data : List Record) (chartData : ChartData) :
    Except String (Reports × List RemoteOutcome) :=
  let _ := data
  let _ := chartData
  let (r, rest) := makeRequest tr
  match r with
  | Except.error e => Except.error e
  | Except.ok resp =>
    let jsonText :=
      match resp with
      | none => "{}"
      | some t =>
        let s := jsTrim (stripFences1 t)
        if s = "" then "{}" else s
    match pr jsonText with
    | some rep => Except.ok (rep, rest)
    | none => Except.ok (generateFallbackReports, rest)

/-- Models the legacy `analyzeAndCleanDataWithGemini` (lines 42-81): the
same five-stage chain as the module version, over the legacy stages. -/
def analyzeAndCleanDataWithGemini
    (pc : String → Option (List Record)) (pa : String → Option RawAnalysis)
    (pd : String → Option ChartData) (pr : String → Option Reports)
    (env : JSPrims) (data : List Record) (apiKey : String) (tr : List RemoteOutcome) :
    Except String (ProcessedDataResponse × List RemoteOutcome) :=
  if apiKey = "" then Except.error ("API Key do Gemini não configurada")
  else
    match cleanDataWithGemini pc tr data with
    | Except.error e => Except.error e
    | Except.ok (cleanedData, t1) =>
      match analyzeDataWithGemini pa env t1 cleanedData with
      | Except.error e => Except.error e
      | Except.ok (analysis, t2) =>
        match generateChartData pd env t2 cleanedData analysis with
        | Except.error e => Except.error e
        | Except.ok (chartData, t3) =>
          let analysis2 := { analysis with chartData := some chartData }
          match generateSummaryWithGemini t3 cleanedData analysis2 with
          | Except.error e => Except.error e
          | Except.ok (summary, t4) =>
            match generateDetailedChartReports pr t4 cleanedData chartData with
            | Except.error e => Except.error e
            | Except.ok (desc, t5) =>
              Except.ok (⟨cleanedData, analysis2, summary, desc⟩, t5)

end GeminiApi

/-! ### An executable instance of the host-environment parsers

These definitions give one concrete `JSPrims` used to evaluate witnesses
and counterexamples.  They implement a fragment of the real JS grammars
(optionally signed decimal integer strings for `Number`, four-digit ISO
years and ISO calendar dates for `Date.parse`) that agrees with a real
JS engine on every string the concrete examples below contain. -/

/-- Decides whether a character list is a non-empty run of decimal
digits. -/
def digitsNonempty (l : List Char) : Bool :=
  !(l.isEmpty) && l.all Char.isDigit

/-- The numeric value of a run of decimal digits. -/
def digitsToNat (l : List Char) : Nat :=
  l.foldl (fun acc c => acc * 10 + (c.toNat - 48)) 0

/-- Fragment of `!isNaN(Number(s))`: the trimmed string is empty (JS
coerces it to `0`) or an optionally signed run of digits. -/
def jsNumLit (s : String) : Bool :=
  let t := trimL s.toList
  t.isEmpty ||
    (match t with
     | '-' :: rest => digitsNonempty rest
     | '+' :: rest => digitsNonempty rest
     | _ => digitsNonempty t)

/-- Fragment of `Number(s)` on strings accepted by `jsNumLit`. -/
def jsNumVal (s : String) : Int :=
  let t := trimL s.toList
  match t with
  | '-' :: rest => -(digitsToNat rest : Int)
  | '+' :: rest => (digitsToNat rest : Int)
  | _ => (digitsToNat t : Int)

/-- Fragment of `!isNaN(Date.parse(s))`: a four-digit ISO year or an ISO
calendar date with a plausible month and day. -/
def jsDateLit (s : String) : Bool :=
  let l := s.toList
  (l.length == 4 && l.all Char.isDigit) ||
    (match l with
     | [y1, y2, y3, y4, h1, m1, m2, h2, d1, d2] =>
       [y1, y2, y3, y4].all Char.isDigit &&
       h1 == '-' && h2 == '-' &&
       [m1, m2].all Char.isDigit && [d1, d2].all Char.isDigit &&
       (let m := (m1.toNat - 48) * 10 + (m2.toNat - 48)
        1 ≤ m && m ≤ 12) &&
       (let d := (d1.toNat - 48) * 10 + (d2.toNat - 48)
        1 ≤ d && d ≤ 31)
     | _ => false)

/-- The concrete host-environment instance used by the examples. -/
def jsEnv : JSPrims :=
  { isNumStr := jsNumLit, isDateStr := jsDateLit, numVal := jsNumVal }

/-- Group lookup used to reason about the aggregation: the summed value
of a category, read as 0 when the category has no group yet. -/
def lookupOr0 (acc : List (String × Int)) (n : String) : Int :=
  (((acc.find? (fun p => p.1 == n)).map Prod.snd).getD 0)

/-! ## Theorems -/

/-! ### Counting missing values (claim C5) -/

/-- Helper: the inner cell fold of `countMissingValues` adds the number
of missing cells of one row. -/
theorem foldl_missing_row (r : Record) (m : Nat) :
    r.foldl (fun m p => if isMissingVal p.2 then m + 1 else m) m = m + missingInRow r := by
  induction r generalizing m with
  | nil => simp [missingInRow]
  | cons p t ih =>
    simp only [List.foldl_cons, ih, missingInRow, List.map_cons, List.countP_cons]
    cases h : isMissingVal p.2 <;> (simp [h]; try omega)

/-- Helper: `countMissingValues` is the sum of the per-row missing-cell
counts. -/
theorem countMissingValues_eq_sum (data : List Record) :
    countMissingValues data = (data.map missingInRow).sum := by
  have key : ∀ (l : List Record) (m : Nat),
      l.foldl (fun missing row =>
        row.foldl (fun m p => if isMissingVal p.2 then m + 1 else m) missing) m =
      m + (l.map missingInRow).sum := by
    intro l
    induction l with
    | nil => simp
    | cons r t ih =>
      intro m
      simp only [List.foldl_cons]
      rw [foldl_missing_row, ih]
      simp only [List.map_cons, List.sum_cons]
      omega
  simpa [countMissingValues] using key data 0

/-- C5: for every record list, `countMissingValues` returns the total
number of cells, summed over all rows and all fields of each row, whose
value is the empty string, null, or undefined; in particular it returns
0 for the empty list and never exceeds the total number of cells. -/
theorem spec_C5_countMissingValues (data : List Record) :
    countMissingValues data = (data.map missingInRow).sum ∧
    countMissingValues ([] : List Record) = 0 ∧
    countMissingValues data ≤ totalCells data := by
  refine ⟨countMissingValues_eq_sum data, rfl, ?_⟩
  rw [countMissingValues_eq_sum, totalCells]
  refine List.sum_le_sum ?_
  intro r _
  calc missingInRow r ≤ (r.map Prod.snd).length := List.countP_le_length _
    _ = r.length := by simp

/-! ### Locally produced totals (claim C10) -/

/-- C10: both of the locally produced analyses set
`dataQuality.totalRows` to the length of the input list, ignoring
whatever `totalRows` the remote model returned (the `raw` argument is
arbitrary, including its `totalRows` field). -/
theorem spec_C10_totalRows (env : JSPrims) (raw : RawAnalysis) (data : List Record) :
    (validateAndEnhanceAnalysis env raw data).dataQuality.totalRows = (data.length : Int) ∧
    (performAutomaticAnalysis env data).dataQuality.totalRows = (data.length : Int) :=
  ⟨rfl, rfl⟩

/-! ### The detection threshold (claim C1) -/

/-- Helper: the column loop of `detectDataTypes` filters the columns by
the verdict of `classifyColumn`. -/
theorem dt_foldl (env : JSPrims) (data : List Record) (cols : List String) (acc : DataTypes) :
    cols.foldl (dtStep env data) acc =
      ⟨acc.numeric ++ cols.filter (fun c => classifyColumn env data c == ColKind.numeric),
       acc.categorical ++ cols.filter (fun c => classifyColumn env data c == ColKind.categorical),
       acc.temporal ++ cols.filter (fun c => classifyColumn env data c == ColKind.temporal)⟩ := by
  induction cols generalizing acc with
  | nil =>
    cases acc
    simp
  | cons c cs ih =>
    rw [List.foldl_cons, ih]
    cases h : classifyColumn env data c <;>
      simp [dtStep, h, List.filter_cons]

/-- Helper: the numeric verdict of `classifyColumn` is exactly the
80-percent threshold on number parses. -/
theorem classify_numeric_iff (env : JSPrims) (data : List Record) (c : String) :
    classifyColumn env data c = ColKind.numeric ↔
      5 * ((sampleValues data c).filter (jsIsNumericVal env)).length >
        4 * (sampleValues data c).length := by
  simp only [classifyColumn]
  split_ifs with h1 h2 <;> simp_all

/-- Helper: the temporal verdict of `classifyColumn` is the failure of
the numeric threshold together with the 80-percent threshold on date
parses. -/
theorem classify_temporal_iff (env : JSPrims) (data : List Record) (c : String) :
    classifyColumn env data c = ColKind.temporal ↔
      (¬ 5 * ((sampleValues data c).filter (jsIsNumericVal env)).length >
          4 * (sampleValues data c).length) ∧
      5 * ((sampleValues data c).filter (jsIsDateVal env)).length >
        4 * (sampleValues data c).length := by
  simp only [classifyColumn]
  split_ifs with h1 h2 <;> simp_all

/-- Helper: the categorical verdict of `classifyColumn` is the failure
of both thresholds. -/
theorem classify_categorical_iff (env : JSPrims) (data : List Record) (c : String) :
    classifyColumn env data c = ColKind.categorical ↔
      (¬ 5 * ((sampleValues data c).filter (jsIsNumericVal env)).length >
          4 * (sampleValues data c).length) ∧
      (¬ 5 * ((sampleValues data c).filter (jsIsDateVal env)).length >
          4 * (sampleValues data c).length) := by
  simp only [classifyColumn]
  split_ifs with h1 h2 <;> simp_all

/-- Helper: on non-empty data, the three lists of `detectDataTypes` are
the filters of the first-record columns by the three verdicts. -/
theorem detectDataTypes_eq_filters (env : JSPrims) (r0 : Record) (rest : List Record) :
    detectDataTypes env (r0 :: rest) =
      ⟨(keys r0).filter (fun c => classifyColumn env (r0 :: rest) c == ColKind.numeric),
       (keys r0).filter (fun c => classifyColumn env (r0 :: rest) c == ColKind.categorical),
       (keys r0).filter (fun c => classifyColumn env (r0 :: rest) c == ColKind.temporal)⟩ := by
  show (keys r0).foldl (dtStep env (r0 :: rest)) ⟨[], [], []⟩ = _
  rw [dt_foldl]
  simp

/-- C1: for every non-empty record list, `detectDataTypes` classifies a
column as numeric exactly when strictly more than 80 percent of its
sampled values (the values that are not the empty string) parse as
numbers; a column not classified numeric is classified temporal exactly
when strictly more than 80 percent of those values parse as dates; every
remaining column of the first record is classified categorical. -/
theorem spec_C1_detectDataTypes_threshold (env : JSPrims) (r0 : Record)
    (rest : List Record) (c : String) :
    (c ∈ (detectDataTypes env (r0 :: rest)).numeric ↔
      c ∈ keys r0 ∧
        5 * ((sampleValues (r0 :: rest) c).filter (jsIsNumericVal env)).length >
          4 * (sampleValues (r0 :: rest) c).length) ∧
    (c ∈ (detectDataTypes env (r0 :: rest)).temporal ↔
      c ∈ keys r0 ∧
        (¬ 5 * ((sampleValues (r0 :: rest) c).filter (jsIsNumericVal env)).length >
            4 * (sampleValues (r0 :: rest) c).length) ∧
        5 * ((sampleValues (r0 :: rest) c).filter (jsIsDateVal env)).length >
          4 * (sampleValues (r0 :: rest) c).length) ∧
    (c ∈ (detectDataTypes env (r0 :: rest)).categorical ↔
      c ∈ keys r0 ∧
        (¬ 5 * ((sampleValues (r0 :: rest) c).filter (jsIsNumericVal env)).length >
            4 * (sampleValues (r0 :: rest) c).length) ∧
        (¬ 5 * ((sampleValues (r0 :: rest) c).filter (jsIsDateVal env)).length >
            4 * (sampleValues (r0 :: rest) c).length)) := by
  rw [detectDataTypes_eq_filters]
  refine ⟨?_, ?_, ?_⟩
  · simp only [List.mem_filter, beq_iff_eq, classify_numeric_iff]
  · simp only [List.mem_filter, beq_iff_eq, classify_temporal_iff]
  · simp only [List.mem_filter, beq_iff_eq, classify_categorical_iff]

/-! ### Type classifications as partitions (claim C2) -/

/-- Counterexample to C2 as stated: on the single record whose only
column `a` holds the string `2020`, which parses both as a number and as
a date, `performAutomaticAnalysis` places the column in the `numeric`
and in the `temporal` list at once, so the three lists are not pairwise
disjoint. -/
theorem spec_C2_counterexample :
    "a" ∈ (performAutomaticAnalysis jsEnv [[("a", Value.str ("2020"))]]).dataTypes.numeric ∧
    "a" ∈ (performAutomaticAnalysis jsEnv [[("a", Value.str ("2020"))]]).dataTypes.temporal := by
  decide

/-- C2 (amended): the classification of `detectDataTypes` is a genuine
partition of the columns of the first record (pairwise disjoint lists,
each duplicate-free when the first record has duplicate-free keys, that
together cover exactly those columns); the classifications of
`performAutomaticAnalysis` and `validateAndEnhanceAnalysis` only cover
every column (for the latter, provided the empty string and the string
`null` do not parse as dates, as in JS), but their lists need not be
pairwise disjoint. -/
theorem spec_C2_amended (env : JSPrims) (r0 : Record) (rest : List Record)
    (raw : RawAnalysis) (hnd : (keys r0).Nodup)
    (hempty : env.isDateStr ("") = false) (hnull : env.isDateStr ("null") = false)
    (c : String) :
    (¬ (c ∈ (detectDataTypes env (r0 :: rest)).numeric ∧
        c ∈ (detectDataTypes env (r0 :: rest)).temporal)) ∧
    (¬ (c ∈ (detectDataTypes env (r0 :: rest)).numeric ∧
        c ∈ (detectDataTypes env (r0 :: rest)).categorical)) ∧
    (¬ (c ∈ (detectDataTypes env (r0 :: rest)).temporal ∧
        c ∈ (detectDataTypes env (r0 :: rest)).categorical)) ∧
    (c ∈ keys r0 ↔
      c ∈ (detectDataTypes env (r0 :: rest)).numeric ∨
      c ∈ (detectDataTypes env (r0 :: rest)).temporal ∨
      c ∈ (detectDataTypes env (r0 :: rest)).categorical) ∧
    ((detectDataTypes env (r0 :: rest)).numeric.Nodup ∧
     (detectDataTypes env (r0 :: rest)).temporal.Nodup ∧
     (detectDataTypes env (r0 :: rest)).categorical.Nodup) ∧
    (c ∈ keysOfData (r0 :: rest) →
      c ∈ (performAutomaticAnalysis env (r0 :: rest)).dataTypes.numeric ∨
      c ∈ (performAutomaticAnalysis env (r0 :: rest)).dataTypes.temporal ∨
      c ∈ (performAutomaticAnalysis env (r0 :: rest)).dataTypes.categorical) ∧
    (c ∈ keysOfData (r0 :: rest) →
      c ∈ (validateAndEnhanceAnalysis env raw (r0 :: rest)).dataTypes.numeric ∨
      c ∈ (validateAndEnhanceAnalysis env raw (r0 :: rest)).dataTypes.temporal ∨
      c ∈ (validateAndEnhanceAnalysis env raw (r0 :: rest)).dataTypes.categorical) := by
  rw [detectDataTypes_eq_filters]
  refine ⟨?_, ?_, ?_, ?_, ?_, ?_, ?_⟩
  · rintro ⟨h1, h2⟩
    rw [List.mem_filter, beq_iff_eq] at h1 h2
    rw [h1.2] at h2
    exact ColKind.noConfusion h2.2
  · rintro ⟨h1, h2⟩
    rw [List.mem_filter, beq_iff_eq] at h1 h2
    rw [h1.2] at h2
    exact ColKind.noConfusion h2.2
  · rintro ⟨h1, h2⟩
    rw [List.mem_filter, beq_iff_eq] at h1 h2
    rw [h1.2] at h2
    exact ColKind.noConfusion h2.2
  · constructor
    · intro hc
      cases h : classifyColumn env (r0 :: rest) c
      · exact Or.inl (List.mem_filter.mpr ⟨hc, by simp [h]⟩)
      · exact Or.inr (Or.inl (List.mem_filter.mpr ⟨hc, by simp [h]⟩))
      · exact Or.inr (Or.inr (List.mem_filter.mpr ⟨hc, by simp [h]⟩))
    · rintro (h | h | h) <;> exact (List.mem_filter.mp h).1
  · exact ⟨hnd.filter _, hnd.filter _, hnd.filter _⟩
  · intro hc
    simp only [performAutomaticAnalysis, keysOfData] at hc ⊢
    by_cases hn : everyNumericCol env (r0 :: rest) c
    · exact Or.inl (List.mem_filter.mpr ⟨hc, hn⟩)
    · by_cases ht : someDateCol env (r0 :: rest) c
      · exact Or.inr (Or.inl (List.mem_filter.mpr ⟨hc, ht⟩))
      · refine Or.inr (Or.inr (List.mem_filter.mpr ⟨hc, ?_⟩))
        simp only [Bool.and_eq_true, Bool.not_eq_eq_eq_not, Bool.not_true]
        constructor
        · rw [Bool.eq_false_iff]
          intro hmem
          obtain ⟨x, hx, hxc⟩ := List.contains_iff_exists_mem_beq.mp hmem
          rw [beq_iff_eq] at hxc
          subst hxc
          rw [List.mem_filter] at hx
          exact absurd hx.2 (by simp [hn])
        · rw [Bool.eq_false_iff]
          intro hmem
          obtain ⟨x, hx, hxc⟩ := List.contains_iff_exists_mem_beq.mp hmem
          rw [beq_iff_eq] at hxc
          subst hxc
          rw [List.mem_filter] at hx
          exact absurd hx.2 (by simp [ht])
  · intro hc
    simp only [validateAndEnhanceAnalysis, autoDetectedTypes, keysOfData] at hc ⊢
    by_cases hn : everyNumericCol env (r0 :: rest) c
    · exact Or.inl (List.mem_filter.mpr ⟨hc, hn⟩)
    · by_cases hw : someDateColWeak env (r0 :: rest) c
      · refine Or.inr (Or.inl (List.mem_filter.mpr ⟨hc, ?_⟩))
        obtain ⟨item, hitem, hdate⟩ := List.any_eq_true.mp hw
        refine List.any_eq_true.mpr ⟨item, hitem, ?_⟩
        simp only [Bool.and_eq_true]
        cases hv : jsGet item c with
        | str s =>
          rw [hv] at hdate
          simp only [jsIsDateVal] at hdate
          refine ⟨⟨by simpa [jsIsDateVal] using hdate, ?_⟩, ?_⟩
          · simp only [Bool.not_eq_eq_eq_not, Bool.not_true, beq_eq_false_iff_ne, ne_eq,
              Value.str.injEq]
            intro hs
            rw [hs] at hdate
            exact absurd hdate (by simp [hempty])
          · simp
        | num n =>
          rw [hv] at hdate
          exact ⟨⟨hdate, by simp⟩, by simp⟩
        | null =>
          rw [hv] at hdate
          simp only [jsIsDateVal] at hdate
          exact absurd hdate (by simp [hnull])
        | undef =>
          rw [hv] at hdate
          exact ⟨⟨hdate, by simp⟩, by simp⟩
      · refine Or.inr (Or.inr (List.mem_filter.mpr ⟨hc, ?_⟩))
        simp only [Bool.and_eq_true, Bool.not_eq_eq_eq_not, Bool.not_true]
        constructor
        · rw [Bool.eq_false_iff]
          intro hmem
          obtain ⟨x, hx, hxc⟩ := List.contains_iff_exists_mem_beq.mp hmem
          rw [beq_iff_eq] at hxc
          subst hxc
          rw [List.mem_filter] at hx
          exact absurd hx.2 (by simp [hn])
        · rw [Bool.eq_false_iff]
          intro hmem
          obtain ⟨x, hx, hxc⟩ := List.contains_iff_exists_mem_beq.mp hmem
          rw [beq_iff_eq] at hxc
          subst hxc
          rw [List.mem_filter] at hx
          exact absurd hx.2 (by simp [hw])

/-- Witness for the amended C2: the detect-side partition equivalence,
instantiated at a concrete record through the theorem. -/
theorem spec_C2_amended_witness :
    "a" ∈ keys [("a", Value.str ("hello"))] ↔
      "a" ∈ (detectDataTypes jsEnv [[("a", Value.str ("hello"))]]).numeric ∨
      "a" ∈ (detectDataTypes jsEnv [[("a", Value.str ("hello"))]]).temporal ∨
      "a" ∈ (detectDataTypes jsEnv [[("a", Value.str ("hello"))]]).categorical :=
  (spec_C2_amended jsEnv [("a", Value.str ("hello"))] [] ⟨none, none⟩
    (by decide) (by decide) (by decide) "a").2.2.2.1

/-! ### CSV conversion (claim C9) -/

/-- Helper: assigning a fresh property appends it. -/
theorem jsSet_of_not_mem (row : Record) (k : String) (v : Value) (h : k ∉ keys row) :
    jsSet row k v = row ++ [(k, v)] := by
  rw [jsSet, if_neg]
  simp only [List.contains, List.elem_eq_mem, decide_eq_true_eq]
  exact h

/-- Helper: the key list of the claim-side record is the header list. -/
theorem rowCellsAux_keys (vs : List String) (hs : List String) (i : Nat) :
    keys (rowCellsAux vs hs i) = hs := by
  induction hs generalizing i with
  | nil => rfl
  | cons h t ih =>
    have := ih (i + 1)
    rw [keys] at this ⊢
    simp [rowCellsAux, this]

/-- Helper: under duplicate-free headers, the fold of JS assignments
builds exactly the claim-side record. -/
theorem buildRowAux_eq_rowCellsAux (vs : List String) (hs : List String) :
    ∀ (i : Nat) (row : Record), hs.Nodup → (∀ h ∈ hs, h ∉ keys row) →
      buildRowAux vs hs i row = row ++ rowCellsAux vs hs i := by
  induction hs with
  | nil => intro i row _ _; simp [buildRowAux, rowCellsAux]
  | cons h t ih =>
    intro i row hnd hfresh
    have hset : jsSet row h (Value.str (vs.getD i (""))) = row ++ [(h, Value.str (vs.getD i ("")))] :=
      jsSet_of_not_mem row h _ (hfresh h (List.mem_cons_self h t))
    have hkeys : keys (row ++ [(h, Value.str (vs.getD i ("")))]) = keys row ++ [h] := by
      simp [keys]
    rw [buildRowAux, hset, ih (i + 1) _ (List.Nodup.of_cons hnd), rowCellsAux]
    · simp
    · intro x hx
      rw [hkeys]
      simp only [List.mem_append, List.mem_singleton]
      rintro (hmem | rfl)
      · exact hfresh x (List.mem_cons_of_mem h hx) hmem
      · exact (List.nodup_cons.mp hnd).1 hx

/-- Helper: under duplicate-free headers, one CSV record is the
claim-side record. -/
theorem buildRow_eq_rowCells (hs vs : List String) (hnd : hs.Nodup) :
    buildRow hs vs = rowCells hs vs := by
  rw [buildRow, rowCells, buildRowAux_eq_rowCellsAux vs hs 0 [] hnd (by simp [keys])]
  simp

/-- Helper: reading the claim-side record at the header of index `j`
yields the field of index `i + j`. -/
theorem rowCellsAux_get (vs : List String) (hs : List String) :
    ∀ (i j : Nat) (h : String), hs.Nodup → hs.get? j = some h →
      jsGet (rowCellsAux vs hs i) h = Value.str (vs.getD (i + j) ("")) := by
  induction hs with
  | nil => intro i j h _ hj; simp at hj
  | cons h0 t ih =>
    intro i j h hnd hj
    match j with
    | 0 =>
      simp only [List.get?_cons_zero, Option.some.injEq] at hj
      subst hj
      simp [rowCellsAux, jsGet, List.find?]
    | j + 1 =>
      simp only [List.get?_cons_succ] at hj
      have hmem : h ∈ t := List.get?_mem hj
      have hne : h0 ≠ h := by
        intro he
        exact (List.nodup_cons.mp hnd).1 (he ▸ hmem)
      rw [rowCellsAux, jsGet]
      simp only [List.find?]
      rw [show (h0 == h) = false from beq_eq_false_iff_ne.mpr hne]
      simp only []
      have := ih (i + 1) j h (List.Nodup.of_cons hnd) hj
      rw [jsGet] at this
      rw [show i + 1 + j = i + (j + 1) by omega] at this
      exact this

/-- C9: `csvToJson` returns one record per non-blank line after the
header line, in order; under duplicate-free processed header names, each
record has exactly the header names as its keys, each value is the
corresponding comma-separated field trimmed with quote characters
removed, and a line with fewer fields than headers yields the empty
string for each missing column. -/
theorem spec_C9_csvToJson (csvText : String) (headers : List String)
    (hh : headers = (splitChar ',' ((splitChar '\n' csvText.toList).headD [])).map processCell)
    (hnd : headers.Nodup) :
    csvToJson csvText =
      (((splitChar '\n' csvText.toList).drop 1).filter (fun line => trimL line ≠ [])).map
        (fun line => rowCells headers ((splitChar ',' line).map processCell)) ∧
    (∀ vs, keys (rowCells headers vs) = headers) ∧
    (∀ vs j h, headers.get? j = some h →
      jsGet (rowCells headers vs) h = Value.str (vs.getD j (""))) := by
  refine ⟨?_, ?_, ?_⟩
  · rw [csvToJson]
    refine List.map_congr_left ?_
    intro line _
    rw [← hh, buildRow_eq_rowCells _ _ hnd]
  · intro vs
    exact rowCellsAux_keys vs headers 0
  · intro vs j h hj
    simpa using rowCellsAux_get vs headers 0 j h hnd hj

/-- Witness for C9: a concrete CSV with surrounding spaces, a quoted
field, a blank line, and a short line, converted through the theorem. -/
theorem spec_C9_csvToJson_witness :
    csvToJson "name,idade\n Alice ,30\n\n\"Bob\"" =
      [[("name", Value.str ("Alice")), ("idade", Value.str ("30"))],
       [("name", Value.str ("Bob")), ("idade", Value.str (""))]] :=
  ((spec_C9_csvToJson "name,idade\n Alice ,30\n\n\"Bob\"" ["name", "idade"]
    (by decide) (by decide)).1).trans (by decide)

/-! ### Fallback chart aggregation (claim C4) -/

/-- Helper: group lookup on the empty accumulator. -/
theorem lookupOr0_nil (n : String) : lookupOr0 [] n = 0 := rfl

/-- Helper: group lookup on a cons cell. -/
theorem lookupOr0_cons (k : String) (v : Int) (ps : List (String × Int)) (n : String) :
    lookupOr0 ((k, v) :: ps) n = if k = n then v else lookupOr0 ps n := by
  simp only [lookupOr0, List.find?]
  by_cases h : k = n
  · simp [h]
  · simp [h, beq_eq_false_iff_ne.mpr h]

/-- Helper: group lookup on an absent key is 0. -/
theorem lookupOr0_of_not_mem (l : List (String × Int)) (n : String)
    (h : n ∉ l.map Prod.fst) : lookupOr0 l n = 0 := by
  induction l with
  | nil => rfl
  | cons p ps ih =>
    obtain ⟨k, w⟩ := p
    simp only [List.map_cons, List.mem_cons] at h
    push_neg at h
    rw [lookupOr0_cons, if_neg (fun he => h.1 he.symm)]
    exact ih h.2

/-- Helper: how `addToGroup` changes group lookups. -/
theorem addToGroup_lookupOr0 (acc : List (String × Int)) (c : String) (v : Int) (n : String) :
    lookupOr0 (addToGroup acc c v) n =
      if n = c then lookupOr0 acc c + v else lookupOr0 acc n := by
  induction acc with
  | nil =>
    by_cases h : n = c <;>
      simp_all [addToGroup, lookupOr0_cons, lookupOr0_nil, eq_comm]
  | cons p ps ih =>
    obtain ⟨k, w⟩ := p
    rw [addToGroup]
    by_cases hpc : k = c
    · rw [if_pos (beq_iff_eq.mpr hpc)]
      by_cases hn : n = c <;> by_cases hkn : k = n <;>
        simp_all [lookupOr0_cons]
    · rw [if_neg (by simpa using hpc)]
      by_cases hn : n = c <;> by_cases hkn : k = n <;>
        simp_all [lookupOr0_cons]

/-- Helper: how `addToGroup` changes the group key list. -/
theorem addToGroup_keys (acc : List (String × Int)) (c : String) (v : Int) :
    (addToGroup acc c v).map Prod.fst =
      if c ∈ acc.map Prod.fst then acc.map Prod.fst else acc.map Prod.fst ++ [c] := by
  induction acc with
  | nil => simp [addToGroup]
  | cons p ps ih =>
    obtain ⟨k, w⟩ := p
    rw [addToGroup]
    by_cases hpc : k = c
    · rw [if_pos (beq_iff_eq.mpr hpc)]
      simp [hpc]
    · rw [if_neg (by simpa using hpc)]
      simp only [List.map_cons, List.mem_cons, ih]
      by_cases hc : c ∈ ps.map Prod.fst
      · simp [hc]
      · have hck : ¬(c = k ∨ c ∈ List.map Prod.fst ps) := by
          rintro (he | hm)
          · exact hpc he.symm
          · exact hc hm
        rw [if_neg hc, if_neg hck]
        simp

/-- Helper: the values accumulated by the reduction are the per-category
sums. -/
theorem groupFold_lookupOr0 (env : JSPrims) (cc vc : String) (data : List Record) :
    ∀ (acc : List (String × Int)) (n : String),
      lookupOr0 (data.foldl (groupStep env cc vc) acc) n =
        lookupOr0 acc n +
          ((data.filter (fun item => categoryName (jsGet item cc) == n)).map
            (fun item => toNumOr0 env (jsGet item vc))).sum := by
  induction data with
  | nil => intro acc n; simp
  | cons item t ih =>
    intro acc n
    rw [List.foldl_cons]
    rw [ih]
    show lookupOr0 (addToGroup acc (categoryName (jsGet item cc)) (toNumOr0 env (jsGet item vc))) n + _ = _
    rw [addToGroup_lookupOr0, List.filter_cons]
    by_cases hn : n = categoryName (jsGet item cc)
    · rw [if_pos hn, if_pos (beq_iff_eq.mpr hn.symm), List.map_cons, List.sum_cons, hn]
      omega
    · rw [if_neg hn, if_neg (by simpa using fun he : categoryName (jsGet item cc) = n => hn he.symm)]

/-- Helper: membership in the seen-accumulator deduplication. -/
theorem dedupFirstAux_mem (l : List String) :
    ∀ (seen : List String) (a : String),
      a ∈ dedupFirstAux seen l ↔ a ∈ l ∧ a ∉ seen := by
  induction l with
  | nil => intro seen a; simp [dedupFirstAux]
  | cons x xs ih =>
    intro seen a
    rw [dedupFirstAux]
    by_cases hx : x ∈ seen
    · rw [if_pos (by simpa [List.contains, List.elem_eq_mem] using hx), ih]
      constructor
      · rintro ⟨h1, h2⟩; exact ⟨List.mem_cons_of_mem x h1, h2⟩
      · rintro ⟨h1, h2⟩
        rcases List.mem_cons.mp h1 with rfl | h1
        · exact absurd hx h2
        · exact ⟨h1, h2⟩
    · rw [if_neg (by simpa [List.contains, List.elem_eq_mem] using hx)]
      simp only [List.mem_cons, ih, List.mem_append, List.mem_singleton]
      by_cases ha : a = x
      · subst ha; simp [hx]
      · simp only [ha, false_or]
        tauto

/-- Helper: the deduplication is duplicate-free. -/
theorem dedupFirstAux_nodup (l : List String) :
    ∀ (seen : List String), (dedupFirstAux seen l).Nodup := by
  induction l with
  | nil => intro seen; simp [dedupFirstAux]
  | cons x xs ih =>
    intro seen
    rw [dedupFirstAux]
    by_cases hx : x ∈ seen
    · rw [if_pos (by simpa [List.contains, List.elem_eq_mem] using hx)]
      exact ih seen
    · rw [if_neg (by simpa [List.contains, List.elem_eq_mem] using hx)]
      refine List.nodup_cons.mpr ⟨?_, ih (seen ++ [x])⟩
      intro hmem
      exact ((dedupFirstAux_mem xs (seen ++ [x]) x).mp hmem).2 (by simp)

/-- Helper: the group keys accumulated by the reduction are the
categories in first-occurrence order past the seen ones. -/
theorem groupFold_keys (env : JSPrims) (cc vc : String) (data : List Record) :
    ∀ (acc : List (String × Int)),
      (data.foldl (groupStep env cc vc) acc).map Prod.fst =
        acc.map Prod.fst ++
          dedupFirstAux (acc.map Prod.fst)
            (data.map (fun item => categoryName (jsGet item cc))) := by
  induction data with
  | nil => intro acc; simp [dedupFirstAux]
  | cons item t ih =>
    intro acc
    rw [List.foldl_cons, List.map_cons, dedupFirstAux]
    show (t.foldl (groupStep env cc vc)
      (addToGroup acc (categoryName (jsGet item cc)) (toNumOr0 env (jsGet item vc)))).map Prod.fst = _
    rw [ih, addToGroup_keys]
    by_cases hc : categoryName (jsGet item cc) ∈ acc.map Prod.fst
    · rw [if_pos hc, if_pos (by simpa [List.contains, List.elem_eq_mem] using hc)]
    · rw [if_neg hc, if_neg (by simpa [List.contains, List.elem_eq_mem] using hc)]
      simp

/-- Helper: the claim-side group keys are the deduplicated categories. -/
theorem specBarGroups_keys (env : JSPrims) (cc vc : String) (data : List Record) :
    (specBarGroups env cc vc data).map Prod.fst =
      dedupFirst (data.map (fun item => categoryName (jsGet item cc))) := by
  rw [specBarGroups, List.map_map]
  refine (List.map_congr_left ?_).trans (List.map_id _)
  intro a _
  rfl

/-- Helper: finding a key inside a keyed map of a string list. -/
theorem find_map_pair (l : List String) (f : String → Int) (n : String) :
    (l.map (fun m => (m, f m))).find? (fun p => p.1 == n) =
      (l.find? (fun m => m == n)).map (fun m => (m, f m)) := by
  induction l with
  | nil => rfl
  | cons x xs ih =>
    simp only [List.map_cons, List.find?]
    cases h : (x == n) <;> simp [h, ih]

/-- Helper: finding a member by equality returns it. -/
theorem find_self_of_mem (l : List String) (n : String) (h : n ∈ l) :
    l.find? (fun m => m == n) = some n := by
  induction l with
  | nil => simp at h
  | cons x xs ih =>
    rw [List.find?]
    cases hx : (x == n) with
    | true =>
      rw [beq_iff_eq] at hx
      simp [hx]
    | false =>
      rcases List.mem_cons.mp h with rfl | hmem
      · simp at hx
      · simpa using ih hmem

/-- Helper: the claim-side group lookup is the per-category sum, for
every category string. -/
theorem specBarGroups_lookupOr0 (env : JSPrims) (cc vc : String) (data : List Record)
    (n : String) :
    lookupOr0 (specBarGroups env cc vc data) n =
      ((data.filter (fun item => categoryName (jsGet item cc) == n)).map
        (fun item => toNumOr0 env (jsGet item vc))).sum := by
  by_cases hn : n ∈ dedupFirst (data.map (fun item => categoryName (jsGet item cc)))
  · rw [lookupOr0, specBarGroups, find_map_pair, find_self_of_mem _ _ hn]
    rfl
  · rw [lookupOr0, specBarGroups, find_map_pair]
    rw [List.find?_eq_none.mpr ?_]
    · have hcat : n ∉ data.map (fun item => categoryName (jsGet item cc)) := by
        intro hmem
        exact hn ((dedupFirstAux_mem _ [] n).mpr ⟨hmem, by simp⟩)
      rw [List.filter_eq_nil_iff.mpr ?_]
      · rfl
      · intro item hitem
        simp only [beq_iff_eq]
        intro he
        exact hcat (List.mem_map.mpr ⟨item, hitem, he⟩)
    · intro x hx
      simp only [beq_iff_eq]
      intro he
      exact hn (he ▸ hx)

/-- Helper: two keyed accumulators with the same duplicate-free key
lists and the same lookups are equal. -/
theorem assoc_ext (l1 : List (String × Int)) :
    ∀ (l2 : List (String × Int)), l1.map Prod.fst = l2.map Prod.fst →
      (l1.map Prod.fst).Nodup → (∀ n, lookupOr0 l1 n = lookupOr0 l2 n) → l1 = l2 := by
  induction l1 with
  | nil =>
    intro l2 hk _ _
    exact (List.map_eq_nil_iff.mp hk.symm).symm
  | cons p ps ih =>
    intro l2 hk hnd hl
    obtain ⟨k, w⟩ := p
    match l2 with
    | [] => simp at hk
    | q :: qs =>
      obtain ⟨k2, w2⟩ := q
      simp only [List.map_cons, List.cons.injEq] at hk
      obtain ⟨hk1, hk2⟩ := hk
      subst hk1
      have hw : w = w2 := by
        have := hl k
        rw [lookupOr0_cons, lookupOr0_cons, if_pos rfl, if_pos rfl] at this
        exact this
      subst hw
      have hknotin : k ∉ ps.map Prod.fst := (List.nodup_cons.mp hnd).1
      have htl : ps = qs := by
        refine ih qs hk2 (List.nodup_cons.mp hnd).2 ?_
        intro n
        by_cases hn : n = k
        · subst hn
          rw [lookupOr0_of_not_mem _ _ hknotin,
            lookupOr0_of_not_mem _ _ (hk2 ▸ hknotin)]
        · have := hl n
          rw [lookupOr0_cons, lookupOr0_cons,
            if_neg (fun he => hn he.symm), if_neg (fun he => hn he.symm)] at this
          exact this
      rw [htl]

/-- Helper: the reduce of `generateFallbackChartData` computes exactly
the claim-side groups. -/
theorem groupFold_eq_specBarGroups (env : JSPrims) (cc vc : String) (data : List Record) :
    groupFold env cc vc data = specBarGroups env cc vc data := by
  have hkeys : (groupFold env cc vc data).map Prod.fst =
      (specBarGroups env cc vc data).map Prod.fst := by
    rw [groupFold, groupFold_keys env cc vc data [], specBarGroups_keys]
    simp [dedupFirst]
  refine assoc_ext _ _ hkeys ?_ ?_
  · rw [hkeys, specBarGroups_keys]
    exact dedupFirstAux_nodup _ []
  · intro n
    rw [groupFold, groupFold_lookupOr0 env cc vc data [] n, specBarGroups_lookupOr0,
      lookupOr0_nil]
    omega

/-- Helper: membership after stable descending insertion. -/
theorem mem_insertPointDesc (l : List ChartPoint) (x a : ChartPoint) :
    a ∈ insertPointDesc l x ↔ a ∈ l ∨ a = x := by
  induction l with
  | nil => simp [insertPointDesc]
  | cons y ys ih =>
    rw [insertPointDesc]
    split
    · simp only [List.mem_cons, ih]
      tauto
    · simp only [List.mem_cons]
      tauto

/-- Helper: stable descending insertion preserves the non-increasing
order. -/
theorem pairwise_insertPointDesc (l : List ChartPoint) (x : ChartPoint)
    (h : List.Pairwise (fun p q : ChartPoint => q.value ≤ p.value) l) :
    List.Pairwise (fun p q : ChartPoint => q.value ≤ p.value) (insertPointDesc l x) := by
  induction l with
  | nil => simp [insertPointDesc]
  | cons y ys ih =>
    rw [insertPointDesc]
    rw [List.pairwise_cons] at h
    split
    · rename_i hyx
      refine List.pairwise_cons.mpr ⟨?_, ih h.2⟩
      intro a ha
      rcases (mem_insertPointDesc ys x a).mp ha with hmem | rfl
      · exact h.1 a hmem
      · exact hyx
    · rename_i hyx
      push_neg at hyx
      refine List.pairwise_cons.mpr ⟨?_, List.pairwise_cons.mpr h⟩
      intro a ha
      rcases List.mem_cons.mp ha with rfl | hmem
      · exact le_of_lt hyx
      · exact le_trans (h.1 a hmem) (le_of_lt hyx)

/-- Helper: the stable sort of `generateFallbackChartData` produces a
non-increasing value sequence. -/
theorem sortPointsDesc_pairwise (l : List ChartPoint) :
    List.Pairwise (fun p q : ChartPoint => q.value ≤ p.value) (sortPointsDesc l) := by
  have key : ∀ (l : List ChartPoint) (acc : List ChartPoint),
      List.Pairwise (fun p q : ChartPoint => q.value ≤ p.value) acc →
      List.Pairwise (fun p q : ChartPoint => q.value ≤ p.value) (l.foldl insertPointDesc acc) := by
    intro l
    induction l with
    | nil => intro acc h; exact h
    | cons x xs ih =>
      intro acc h
      exact ih _ (pairwise_insertPointDesc acc x h)
  exact key l [] (by simp)

/-- C4: when the analysis has at least one categorical and one numeric
column, the fallback bar series is obtained by grouping the rows on the
first categorical column (a falsy or absent category counting as the
label Outros), summing the first numeric column per group (a non-numeric
cell contributing 0), sorting the groups in non-increasing order of the
summed value, and keeping at most 10 entries; the line, pie, and scatter
series are always empty, and without a categorical or numeric column the
bar series is empty too. -/
theorem spec_C4_generateFallbackChartData (env : JSPrims) (data : List Record)
    (analysis : DataAnalysis) :
    (generateFallbackChartData env data analysis).line = [] ∧
    (generateFallbackChartData env data analysis).pie = [] ∧
    (generateFallbackChartData env data analysis).scatter = [] ∧
    ((analysis.dataTypes.categorical = [] ∨ analysis.dataTypes.numeric = []) →
      (generateFallbackChartData env data analysis).bar = []) ∧
    (analysis.dataTypes.categorical ≠ [] → analysis.dataTypes.numeric ≠ [] →
      (generateFallbackChartData env data analysis).bar =
        (sortPointsDesc ((specBarGroups env (analysis.dataTypes.categorical.headD (""))
          (analysis.dataTypes.numeric.headD ("")) data).map
            (fun p => ChartPoint.mk p.1 p.2))).take 10 ∧
      List.Pairwise (fun p q : ChartPoint => q.value ≤ p.value)
        (generateFallbackChartData env data analysis).bar ∧
      (generateFallbackChartData env data analysis).bar.length ≤ 10) := by
  refine ⟨?_, ?_, ?_, ?_, ?_⟩
  · rw [generateFallbackChartData]; split <;> rfl
  · rw [generateFallbackChartData]; split <;> rfl
  · rw [generateFallbackChartData]; split <;> rfl
  · intro h
    rw [generateFallbackChartData]
    rw [if_neg ?_]
    simp only [Bool.and_eq_true, decide_eq_true_eq, not_and]
    intro hcat
    rcases h with h | h
    · exact absurd hcat (by simp [h])
    · intro hnum
      exact absurd hnum (by simp [h])
  · intro hcat hnum
    have hcond : (decide (analysis.dataTypes.categorical.length > 0) &&
        decide (analysis.dataTypes.numeric.length > 0)) = true := by
      simp [List.length_pos.mpr hcat, List.length_pos.mpr hnum]
    have hbar : (generateFallbackChartData env data analysis).bar =
        (sortPointsDesc ((groupFold env (analysis.dataTypes.categorical.headD (""))
          (analysis.dataTypes.numeric.headD ("")) data).map
            (fun p => ChartPoint.mk p.1 p.2))).take 10 := by
      rw [generateFallbackChartData, if_pos hcond]
    refine ⟨?_, ?_, ?_⟩
    · rw [hbar, groupFold_eq_specBarGroups]
    · rw [hbar]
      exact List.Pairwise.sublist (List.take_sublist _ _) (sortPointsDesc_pairwise _)
    · rw [hbar, List.length_take]
      exact min_le_left _ _

/-- Witness for C4: a concrete three-row table with a repeated category,
aggregated through the theorem. -/
theorem spec_C4_generateFallbackChartData_witness :
    (generateFallbackChartData jsEnv
      [[("cat", Value.str ("x")), ("v", Value.str ("3"))],
       [("cat", Value.str ("y")), ("v", Value.str ("5"))],
       [("cat", Value.str ("x")), ("v", Value.str ("4"))]]
      { dataQuality := ⟨0, 0, 0, 0⟩, suggestions := [], recommendedCharts := [],
        dataTypes := { numeric := ["v"], categorical := ["cat"], temporal := [] },
        chartData := none }).bar =
      [ChartPoint.mk ("x") 7, ChartPoint.mk ("y") 5] :=
  (((spec_C4_generateFallbackChartData jsEnv
      [[("cat", Value.str ("x")), ("v", Value.str ("3"))],
       [("cat", Value.str ("y")), ("v", Value.str ("5"))],
       [("cat", Value.str ("x")), ("v", Value.str ("4"))]]
      { dataQuality := ⟨0, 0, 0, 0⟩, suggestions := [], recommendedCharts := [],
        dataTypes := { numeric := ["v"], categorical := ["cat"], temporal := [] },
        chartData := none }).2.2.2.2 (by decide) (by decide)).1).trans (by decide)

/-! ### Fence stripping and JSON parsing (claim C8) -/

/-- Helper: a fence prefix makes the fence test fire. -/
theorem containsFence_of_fence_start (l : List Char) (h : fence3.isPrefixOf l = true) :
    containsFence l = true := by
  cases l with
  | nil => simp [fence3, backtick, List.isPrefixOf] at h
  | cons c cs => simp [containsFence, h]

/-- Helper: a prefix through an append is a prefix of the left part. -/
theorem isPrefixOf_of_append_isPrefixOf (a b l : List Char)
    (h : (a ++ b).isPrefixOf l = true) : a.isPrefixOf l = true := by
  rw [List.isPrefixOf_iff_prefix] at h ⊢
  exact (List.prefix_append a b).trans h

/-- Helper: without any three-backtick run, the json-fence scanner is
the identity. -/
theorem stripFencesGo_no_fence (fuel : Nat) :
    ∀ l, containsFence l = false → stripFencesGo fuel l = l := by
  induction fuel with
  | zero => intro l _; cases l <;> rfl
  | succ fuel ih =>
    intro l h
    cases l with
    | nil => rfl
    | cons c cs =>
      have hsplit : fence3.isPrefixOf (c :: cs) = false ∧ containsFence cs = false := by
        simpa [containsFence] using h
      rw [stripFencesGo]
      rw [if_neg ?_, if_neg ?_, if_neg ?_, if_neg ?_]
      · rw [ih cs hsplit.2]
      · simp [hsplit.1]
      · intro hnl
        rw [show nlFence = '\n' :: fence3 from rfl, List.isPrefixOf_cons₂,
          Bool.and_eq_true] at hnl
        have : fence3.isPrefixOf cs = true := hnl.2
        exact absurd (containsFence_of_fence_start cs this) (by simp [hsplit.2])
      · intro hjson
        rw [show fenceJson = fence3 ++ ['j', 's', 'o', 'n'] from rfl] at hjson
        have : fence3.isPrefixOf (c :: cs) = true :=
          isPrefixOf_of_append_isPrefixOf fence3 _ _ hjson
        simp [this] at hsplit
      · intro hjsonnl
        rw [show fenceJsonNl = fence3 ++ (['j', 's', 'o', 'n'] ++ ['\n']) from by
          rw [show fenceJsonNl = fenceJson ++ ['\n'] from rfl,
            show fenceJson = fence3 ++ ['j', 's', 'o', 'n'] from rfl, List.append_assoc]] at hjsonnl
        have : fence3.isPrefixOf (c :: cs) = true :=
          isPrefixOf_of_append_isPrefixOf fence3 _ _ hjsonnl
        simp [this] at hsplit

/-- Helper: without any three-backtick run, the bare-fence scanner is
the identity. -/
theorem stripBareFencesGo_no_fence (fuel : Nat) :
    ∀ l, containsFence l = false → stripBareFencesGo fuel l = l := by
  induction fuel with
  | zero => intro l _; cases l <;> rfl
  | succ fuel ih =>
    intro l h
    cases l with
    | nil => rfl
    | cons c cs =>
      have hsplit : fence3.isPrefixOf (c :: cs) = false ∧ containsFence cs = false := by
        simpa [containsFence] using h
      rw [stripBareFencesGo]
      rw [if_neg ?_, if_neg ?_, if_neg ?_]
      · rw [ih cs hsplit.2]
      · intro hnl
        rw [show nlFence = '\n' :: fence3 from rfl, List.isPrefixOf_cons₂,
          Bool.and_eq_true] at hnl
        have : fence3.isPrefixOf cs = true := hnl.2
        exact absurd (containsFence_of_fence_start cs this) (by simp [hsplit.2])
      · simp [hsplit.1]
      · intro hfnl
        rw [show fenceNl = fence3 ++ ['\n'] from rfl] at hfnl
        have : fence3.isPrefixOf (c :: cs) = true :=
          isPrefixOf_of_append_isPrefixOf fence3 _ _ hfnl
        simp [this] at hsplit

/-- Helper: a fence-free text is left unchanged by both replacements. -/
theorem stripFences_no_fence (text : String) (h : containsFence text.toList = false) :
    stripFences1 text = text ∧ stripFences2 text = text := by
  constructor
  · rw [stripFences1, stripFencesGo_no_fence _ _ h]
    rfl
  · rw [stripFences2]
    simp only [stripFencesGo_no_fence _ _ h]
    rw [stripBareFencesGo_no_fence _ _ h]
    rfl

/-- C8: both variants of `parseJsonResponse` strip the markdown fences,
trim, and feed the result to the JSON parser, succeeding exactly when
the parser does and throwing the fixed parse error otherwise; on a text
without any fence, both agree with plain parsing of the trimmed text. -/
theorem spec_C8_parseJsonResponse {α : Type} (p : String → Option α) (text : String) :
    (∀ v, parseJsonResponse p text = Except.ok v ↔ p (jsTrim (stripFences1 text)) = some v) ∧
    ((∃ e, parseJsonResponse p text = Except.error e) ↔ p (jsTrim (stripFences1 text)) = none) ∧
    (∀ v, parseJsonResponse2 p text = Except.ok v ↔ p (jsTrim (stripFences2 text)) = some v) ∧
    ((∃ e, parseJsonResponse2 p text = Except.error e) ↔ p (jsTrim (stripFences2 text)) = none) ∧
    (containsFence text.toList = false →
      parseJsonResponse p text = (match p (jsTrim text) with
        | some v => Except.ok v
        | none => Except.error ("Erro ao fazer parse da resposta JSON")) ∧
      parseJsonResponse2 p text = (match p (jsTrim text) with
        | some v => Except.ok v
        | none => Except.error ("Erro ao fazer parse da resposta JSON"))) := by
  refine ⟨?_, ?_, ?_, ?_, ?_⟩
  · intro v
    rw [parseJsonResponse]
    cases hp : p (jsTrim (stripFences1 text)) <;> simp
  · rw [parseJsonResponse]
    cases hp : p (jsTrim (stripFences1 text)) <;> simp
  · intro v
    rw [parseJsonResponse2]
    cases hp : p (jsTrim (stripFences2 text)) <;> simp
  · rw [parseJsonResponse2]
    cases hp : p (jsTrim (stripFences2 text)) <;> simp
  · intro h
    obtain ⟨h1, h2⟩ := stripFences_no_fence text h
    constructor
    · rw [parseJsonResponse, h1]
    · rw [parseJsonResponse2, h2]

/-- Witness for C8: a concrete fenceless text with surrounding blanks,
parsed through the theorem. -/
theorem spec_C8_parseJsonResponse_witness :
    parseJsonResponse (fun s => if s = "7" then some (7 : Int) else none) " 7 " =
      Except.ok 7 ∧
    parseJsonResponse2 (fun s => if s = "7" then some (7 : Int) else none) " 7 " =
      Except.ok 7 := by
  have h := (spec_C8_parseJsonResponse (fun s => if s = "7" then some (7 : Int) else none)
    " 7 ").2.2.2.2 (by decide)
  exact ⟨h.1.trans (by rfl), h.2.trans (by rfl)⟩

/-! ### Error handling of the pipeline stages (claims C3 and C6) -/

/-- Counterexample to C3 as stated: a network failure during the analyze
stage of the gemini module is rethrown by the stage, and the pipeline
rethrows it to the caller instead of substituting a fallback. -/
theorem spec_C3_counterexample :
    GeminiDataProcessor.analyzeData (fun _ => none) [RemoteOutcome.netFail] [] =
      Except.error ("Erro na API Gemini") ∧
    analyzeAndCleanDataWithGemini (fun _ => none) (fun _ => none) (fun _ => none)
      (fun _ => none) jsEnv [[("a", Value.str ("1"))]] "key"
      [RemoteOutcome.netFail, RemoteOutcome.netFail] =
      Except.error ("Erro na API Gemini") :=
  ⟨rfl, rfl⟩

/-- C3 (amended): in the gemini module every stage except analyze
replaces any failure with a fallback — clean with the original data,
chart data with the local aggregation, the summary with a static text,
the reports with the static report texts — and in particular never
throws; the analyze stage rethrows its failure, which then propagates
out of the pipeline to the caller. -/
theorem spec_C3_amended :
    (∀ (pc : String → Option (List Record)) (tr : List RemoteOutcome) (data : List Record),
      ∃ r rest, GeminiDataProcessor.cleanData pc tr data = Except.ok (r, rest)) ∧
    (∀ (pd : String → Option ChartData) (env : JSPrims) (tr : List RemoteOutcome)
        (data : List Record) (analysis : DataAnalysis),
      ∃ r rest, GeminiChartGenerator.generateChartData pd env tr data analysis =
        Except.ok (r, rest)) ∧
    (∀ (tr : List RemoteOutcome) (data : List Record) (analysis : DataAnalysis),
      ∃ r rest, GeminiDataProcessor.generateSummary tr data analysis = Except.ok (r, rest)) ∧
    (∀ (pr : String → Option Reports) (tr : List RemoteOutcome) (data : List Record)
        (cd : ChartData),
      ∃ r rest, GeminiChartGenerator.generateDetailedChartReports pr tr data cd =
        Except.ok (r, rest)) ∧
    (∀ (pc : String → Option (List Record)) (tr : List RemoteOutcome) (data : List Record),
      GeminiDataProcessor.cleanData pc (RemoteOutcome.netFail :: tr) data =
        Except.ok (data, tr)) ∧
    (∀ (pd : String → Option ChartData) (env : JSPrims) (tr : List RemoteOutcome)
        (data : List Record) (analysis : DataAnalysis),
      GeminiChartGenerator.generateChartData pd env (RemoteOutcome.netFail :: tr) data analysis =
        Except.ok (generateFallbackChartData env data analysis, tr)) ∧
    (∀ (tr : List RemoteOutcome) (data : List Record) (analysis : DataAnalysis),
      GeminiDataProcessor.generateSummary (RemoteOutcome.netFail :: tr) data analysis =
        Except.ok ("Resumo não disponível", tr)) ∧
    (∀ (pr : String → Option Reports) (tr : List RemoteOutcome) (data : List Record)
        (cd : ChartData),
      GeminiChartGenerator.generateDetailedChartReports pr (RemoteOutcome.netFail :: tr) data cd =
        Except.ok (generateFallbackReports, tr)) ∧
    (∀ (pa : String → Option DataAnalysis) (tr : List RemoteOutcome) (data : List Record),
      GeminiDataProcessor.analyzeData pa (RemoteOutcome.netFail :: tr) data =
        Except.error ("Erro na API Gemini")) ∧
    (∀ (pc : String → Option (List Record)) (pa : String → Option DataAnalysis)
        (pd : String → Option ChartData) (pr : String → Option Reports) (env : JSPrims)
        (data : List Record) (apiKey : String) (tr : List RemoteOutcome),
      apiKey ≠ "" →
      analyzeAndCleanDataWithGemini pc pa pd pr env data apiKey
          (RemoteOutcome.netFail :: RemoteOutcome.netFail :: tr) =
        Except.error ("Erro na API Gemini")) := by
  refine ⟨?_, ?_, ?_, ?_, ?_, ?_, ?_, ?_, ?_, ?_⟩
  · intro pc tr data
    rcases hreq : requestText tr with ⟨rt, rest⟩
    cases rt with
    | error e =>
      exact ⟨data, rest, by simp only [GeminiDataProcessor.cleanData, hreq]⟩
    | ok text =>
      cases hp : parseJsonResponse pc text with
      | error e2 =>
        exact ⟨data, rest, by simp only [GeminiDataProcessor.cleanData, hreq, hp]⟩
      | ok parsed =>
        exact ⟨parsed, rest, by simp only [GeminiDataProcessor.cleanData, hreq, hp]⟩
  · intro pd env tr data analysis
    rcases hreq : requestText tr with ⟨rt, rest⟩
    cases rt with
    | error e =>
      exact ⟨generateFallbackChartData env data analysis, rest,
        by simp only [GeminiChartGenerator.generateChartData, hreq]⟩
    | ok text =>
      cases hp : parseJsonResponse pd text with
      | error e2 =>
        exact ⟨generateFallbackChartData env data analysis, rest,
          by simp only [GeminiChartGenerator.generateChartData, hreq, hp]⟩
      | ok parsed =>
        exact ⟨parsed, rest, by simp only [GeminiChartGenerator.generateChartData, hreq, hp]⟩
  · intro tr data analysis
    rcases hreq : requestText tr with ⟨rt, rest⟩
    cases rt with
    | error e =>
      exact ⟨"Resumo não disponível", rest,
        by simp only [GeminiDataProcessor.generateSummary, hreq]⟩
    | ok text =>
      exact ⟨text, rest, by simp only [GeminiDataProcessor.generateSummary, hreq]⟩
  · intro pr tr data cd
    rcases hreq : requestText tr with ⟨rt, rest⟩
    cases rt with
    | error e =>
      exact ⟨generateFallbackReports, rest,
        by simp only [GeminiChartGenerator.generateDetailedChartReports, hreq]⟩
    | ok text =>
      cases hp : parseJsonResponse pr text with
      | error e2 =>
        exact ⟨generateFallbackReports, rest,
          by simp only [GeminiChartGenerator.generateDetailedChartReports, hreq, hp]⟩
      | ok parsed =>
        exact ⟨parsed, rest,
          by simp only [GeminiChartGenerator.generateDetailedChartReports, hreq, hp]⟩
  · intro pc tr data
    rfl
  · intro pd env tr data analysis
    rfl
  · intro tr data analysis
    rfl
  · intro pr tr data cd
    rfl
  · intro pa tr data
    rfl
  · intro pc pa pd pr env data apiKey tr hk
    rw [analyzeAndCleanDataWithGemini, if_neg hk]
    rfl

/-- Witness for the amended C3: a concrete run in which the clean stage
falls back and the analyze stage then aborts the whole pipeline. -/
theorem spec_C3_amended_witness :
    analyzeAndCleanDataWithGemini (fun _ => none) (fun _ => none) (fun _ => none)
      (fun _ => none) jsEnv [[("b", Value.str ("2"))]] "chave"
      [RemoteOutcome.netFail, RemoteOutcome.netFail] =
      Except.error ("Erro na API Gemini") :=
  spec_C3_amended.2.2.2.2.2.2.2.2.2 (fun _ => none) (fun _ => none) (fun _ => none)
    (fun _ => none) jsEnv [[("b", Value.str ("2"))]] "chave" [] (by decide)

/-- Counterexample to C6 as stated: in the legacy service a network
failure of the remote cleaning call is thrown out of
`cleanDataWithGemini` instead of returning the original input. -/
theorem spec_C6_counterexample :
    GeminiApi.cleanDataWithGemini (fun _ => none) [RemoteOutcome.netFail]
      [[("a", Value.str ("1"))]] = Except.error ("Erro na API Gemini") :=
  rfl

/-- C6 (amended): the gemini module stage returns the original input on
every failure of the remote cleaning call (request error, invalid
response shape, or JSON-parse failure); the legacy `cleanDataWithGemini`
returns the original input only on a JSON-parse failure, and throws on a
request error or invalid response shape. -/
theorem spec_C6_amended :
    (∀ (pc : String → Option (List Record)) (tr : List RemoteOutcome) (data : List Record)
        (e : String) (rest : List RemoteOutcome),
      requestText tr = (Except.error e, rest) →
      GeminiDataProcessor.cleanData pc tr data = Except.ok (data, rest)) ∧
    (∀ (pc : String → Option (List Record)) (tr : List RemoteOutcome) (data : List Record)
        (text : String) (rest : List RemoteOutcome),
      requestText tr = (Except.ok text, rest) →
      pc (jsTrim (stripFences1 text)) = none →
      GeminiDataProcessor.cleanData pc tr data = Except.ok (data, rest)) ∧
    (∀ (pc : String → Option (List Record)) (tr : List RemoteOutcome) (data : List Record)
        (text : String) (rest : List RemoteOutcome),
      requestText tr = (Except.ok text, rest) →
      pc (jsTrim (stripFences1 text)) = none →
      GeminiApi.cleanDataWithGemini pc tr data = Except.ok (data, rest)) ∧
    (∀ (pc : String → Option (List Record)) (tr : List RemoteOutcome) (data : List Record)
        (e : String) (rest : List RemoteOutcome),
      requestText tr = (Except.error e, rest) →
      GeminiApi.cleanDataWithGemini pc tr data = Except.error e) := by
  refine ⟨?_, ?_, ?_, ?_⟩
  · intro pc tr data e rest hreq
    simp only [GeminiDataProcessor.cleanData, hreq]
  · intro pc tr data text rest hreq hp
    have hperr : parseJsonResponse pc text =
        Except.error ("Erro ao fazer parse da resposta JSON") := by
      simp only [parseJsonResponse, hp]
    simp only [GeminiDataProcessor.cleanData, hreq, hperr]
  · intro pc tr data text rest hreq hp
    simp only [GeminiApi.cleanDataWithGemini, hreq, hp]
  · intro pc tr data e rest hreq
    simp only [GeminiApi.cleanDataWithGemini, hreq]

/-- Witness for the amended C6: a request failure handled by the module
stage, through the theorem. -/
theorem spec_C6_amended_witness :
    GeminiDataProcessor.cleanData (fun _ => none) [RemoteOutcome.netFail]
      [[("a", Value.str ("1"))]] = Except.ok ([[("a", Value.str ("1"))]], []) :=
  spec_C6_amended.1 (fun _ => none) [RemoteOutcome.netFail] [[("a", Value.str ("1"))]]
    "Erro na API Gemini" [] rfl

/-! ### Pipeline sequencing (claim C7) -/

/-- C7: both pipeline entry points run exactly the five stages clean,
analyze, generate-chart-data, summarize, generate-reports, in that
order, as one monadic chain: each stage receives the result of the
prior stage (the analysis is computed on the cleaned data, the chart
data from the cleaned data and the analysis, the summary and the
reports from the cleaned data and the prior results) together with the
remote-outcome trace left over by the prior stage, and a stage only
consumes the trace after every earlier stage has finished with it. -/
theorem spec_C7_pipeline_order
    (pc : String → Option (List Record)) (pa : String → Option DataAnalysis)
    (pd : String → Option ChartData) (pr : String → Option Reports)
    (pa2 : String → Option RawAnalysis)
    (env : JSPrims) (data : List Record) (apiKey : String) (tr : List RemoteOutcome) :
    analyzeAndCleanDataWithGemini pc pa pd pr env data apiKey tr =
      (if apiKey = "" then Except.error ("API Key do Gemini não configurada") else
        (GeminiDataProcessor.cleanData pc tr data).bind (fun cres =>
          (GeminiDataProcessor.analyzeData pa cres.2 cres.1).bind (fun ares =>
            (GeminiChartGenerator.generateChartData pd env ares.2 cres.1 ares.1).bind
              (fun chres =>
                (GeminiDataProcessor.generateSummary chres.2 cres.1
                    { ares.1 with chartData := some chres.1 }).bind (fun sres =>
                  (GeminiChartGenerator.generateDetailedChartReports pr sres.2 cres.1
                      chres.1).bind (fun rres =>
                    Except.ok
                      (⟨cres.1, { ares.1 with chartData := some chres.1 }, sres.1, rres.1⟩,
                        rres.2))))))) ∧
    GeminiApi.analyzeAndCleanDataWithGemini pc pa2 pd pr env data apiKey tr =
      (if apiKey = "" then Except.error ("API Key do Gemini não configurada") else
        (GeminiApi.cleanDataWithGemini pc tr data).bind (fun cres =>
          (GeminiApi.analyzeDataWithGemini pa2 env cres.2 cres.1).bind (fun ares =>
            (GeminiApi.generateChartData pd env ares.2 cres.1 ares.1).bind (fun chres =>
              (GeminiApi.generateSummaryWithGemini chres.2 cres.1
                  { ares.1 with chartData := some chres.1 }).bind (fun sres =>
                (GeminiApi.generateDetailedChartReports pr sres.2 cres.1 chres.1).bind
                  (fun rres =>
                    Except.ok
                      (⟨cres.1, { ares.1 with chartData := some chres.1 }, sres.1, rres.1⟩,
                        rres.2))))))) := by
  constructor
  · by_cases hk : apiKey = ""
    · rw [analyzeAndCleanDataWithGemini, if_pos hk, if_pos hk]
    · rw [analyzeAndCleanDataWithGemini, if_neg hk, if_neg hk]
      split
      · rename_i e heq
        rw [heq]
        rfl
      · rename_i cleanedData t1 heq
        rw [heq]
        simp only [Except.bind]
        split
        · rename_i e heq2
          rw [heq2]
        · rename_i analysis t2 heq2
          rw [heq2]
          simp only [Except.bind]
          split
          · rename_i e heq3
            rw [heq3]
          · rename_i chartData t3 heq3
            rw [heq3]
            simp only [Except.bind]
            split
            · rename_i e heq4
              rw [heq4]
            · rename_i summary t4 heq4
              rw [heq4]
              simp only [Except.bind]
              split
              · rename_i e heq5
                rw [heq5]
              · rename_i desc t5 heq5
                rw [heq5]
  · by_cases hk : apiKey = ""
    · rw [GeminiApi.analyzeAndCleanDataWithGemini, if_pos hk, if_pos hk]
    · rw [GeminiApi.analyzeAndCleanDataWithGemini, if_neg hk, if_neg hk]
      split
      · rename_i e heq
        rw [heq]
        rfl
      · rename_i cleanedData t1 heq
        rw [heq]
        simp only [Except.bind]
        split
        · rename_i e heq2
          rw [heq2]
        · rename_i analysis t2 heq2
          rw [heq2]
          simp only [Except.bind]
          split
          · rename_i e heq3
            rw [heq3]
          · rename_i chartData t3 heq3
            rw [heq3]
            simp only [Except.bind]
            split
            · rename_i e heq4
              rw [heq4]
            · rename_i summary t4 heq4
              rw [heq4]
              simp only [Except.bind]
              split
              · rename_i e heq5
                rw [heq5]
              · rename_i desc t5 heq5
                rw [heq5]
